import Mathlib

/-!
# glidar: the scene transform pipeline of src/scene.h

A shallow embedding of class Scene (src/scene.h): the clip-plane estimation of
projection_setup, the render drivers, the matrix builders, and the point-cloud
reconstruction of write_point_cloud.

Numbers.  The C++ code computes in float and double.  The embedding computes in
an arbitrary linearly ordered field K (the rationals for evaluation, the reals
for the exact-arithmetic reading of the specification); rounding and the
float/double conversions are not modelled.  Division by zero yields 0 in a Lean
field where the C++ code yields an infinity or a NaN; no statement below relies
on such a quotient.

Libraries.  GLM is a header library outside the repository.  Its functions are
transcribed from their GLM definitions (column-major storage: the C++ m[c][r]
is the entry in row r and column c, here m r c).  The libm functions cos, sin
and tan are supplied as an environment (structure Libm), and glm::unProject, the
viewport and the pixels read back from OpenGL are parameters of
write_point_cloud.  OpenGL calls are recorded in a log of GLCall values.
-/

namespace Glidar

/-! ## GLM vectors and matrices -/

/-- The type glm::vec3. -/
abbrev Vec3 (K : Type) := Fin 3 → K

/-- The type glm::vec4. -/
abbrev Vec4 (K : Type) := Fin 4 → K

/-- The type glm::mat3; entry m r c is the C++ m[c][r]. -/
abbrev Mat3 (K : Type) := Matrix (Fin 3) (Fin 3) K

/-- The type glm::mat4; entry m r c is the C++ m[c][r]. -/
abbrev Mat4 (K : Type) := Matrix (Fin 4) (Fin 4) K

/-- The type glm::quat (and glm::dquat). -/
structure Quat (K : Type) where
  w : K
  x : K
  y : K
  z : K

/-- The functions of libm the code reaches through GLM. -/
structure Libm (K : Type) where
  cos : K → K
  sin : K → K
  tan : K → K

section glm

variable {K : Type} [LinearOrderedField K]

/-- A mat4 given by its four columns, the way GLM stores it. -/
def ofColumns (c0 c1 c2 c3 : Vec4 K) : Mat4 K :=
  Matrix.of fun r c => (![c0, c1, c2, c3] c) r

/-- The function glm::scale(m, v): the first three columns of m are multiplied by
v.x, v.y, v.z and the fourth is kept. -/
def scale (m : Mat4 K) (v : Vec3 K) : Mat4 K :=
  ofColumns (fun r => m r 0 * v 0) (fun r => m r 1 * v 1) (fun r => m r 2 * v 2)
    (fun r => m r 3)

/-- The function glm::translate(m, v): the fourth column becomes
m[0]*v.x + m[1]*v.y + m[2]*v.z + m[3]. -/
def translate (m : Mat4 K) (v : Vec3 K) : Mat4 K :=
  ofColumns (fun r => m r 0) (fun r => m r 1) (fun r => m r 2)
    (fun r => m r 0 * v 0 + m r 1 * v 1 + m r 2 * v 2 + m r 3)

/-- The function glm::rotate(m, angle, v).  GLM first normalises the axis v;
scene.h only passes the three unit coordinate axes, for which normalisation is
the identity, so the axis is used as given. -/
def rotate (lm : Libm K) (m : Mat4 K) (angle : K) (v : Vec3 K) : Mat4 K :=
  let c := lm.cos angle
  let s := lm.sin angle
  let axis := v
  let temp : Vec3 K := fun k => (1 - c) * axis k
  let r00 := c + temp 0 * axis 0
  let r01 := temp 0 * axis 1 + s * axis 2
  let r02 := temp 0 * axis 2 - s * axis 1
  let r10 := temp 1 * axis 0 - s * axis 2
  let r11 := c + temp 1 * axis 1
  let r12 := temp 1 * axis 2 + s * axis 0
  let r20 := temp 2 * axis 0 + s * axis 1
  let r21 := temp 2 * axis 1 - s * axis 0
  let r22 := c + temp 2 * axis 2
  ofColumns (fun r => m r 0 * r00 + m r 1 * r01 + m r 2 * r02)
    (fun r => m r 0 * r10 + m r 1 * r11 + m r 2 * r12)
    (fun r => m r 0 * r20 + m r 1 * r21 + m r 2 * r22)
    (fun r => m r 3)

/-- The function glm::perspective(fovy, aspect, zNear, zFar) (right-handed,
depth range -1..1, the GLM default). -/
def perspective (lm : Libm K) (fovy aspect zNear zFar : K) : Mat4 K :=
  let tanHalfFovy := lm.tan (fovy / 2)
  ofColumns ![1 / (aspect * tanHalfFovy), 0, 0, 0]
    ![0, 1 / tanHalfFovy, 0, 0]
    ![0, 0, -(zFar + zNear) / (zFar - zNear), -1]
    ![0, 0, -(2 * zFar * zNear) / (zFar - zNear), 0]

/-- The function glm::inverse on mat4: the cofactor (adjugate) matrix times one
over the determinant. -/
def inverse (m : Mat4 K) : Mat4 K :=
  (Matrix.det m)⁻¹ • Matrix.adjugate m

/-- The function glm::inverse on mat3. -/
def inverse3 (m : Mat3 K) : Mat3 K :=
  (Matrix.det m)⁻¹ • Matrix.adjugate m

/-- The function glm::inverseTranspose on mat3. -/
def inverseTranspose (m : Mat3 K) : Mat3 K :=
  Matrix.transpose (inverse3 m)

/-- The conversion glm::mat3(m) of a mat4: its upper-left 3x3 block. -/
def mat3_of (m : Mat4 K) : Mat3 K :=
  Matrix.of fun r c => m (Fin.castSucc r) (Fin.castSucc c)

/-- The function glm::conjugate on quaternions. -/
def Quat.conjugate (q : Quat K) : Quat K :=
  { w := q.w, x := -q.x, y := -q.y, z := -q.z }

/-- The function glm::dot on quaternions. -/
def Quat.dot (a b : Quat K) : K :=
  a.x * b.x + a.y * b.y + a.z * b.z + a.w * b.w

/-- The function glm::inverse on quaternions: conjugate(q) / dot(q, q). -/
def Quat.inverse (q : Quat K) : Quat K :=
  let c := q.conjugate
  let n := Quat.dot q q
  { w := c.w / n, x := c.x / n, y := c.y / n, z := c.z / n }

/-- The function glm::mat4_cast(q): the rotation block of glm::mat3_cast(q)
completed by the identity. -/
def mat4_cast (q : Quat K) : Mat4 K :=
  let qxx := q.x * q.x
  let qyy := q.y * q.y
  let qzz := q.z * q.z
  let qxz := q.x * q.z
  let qxy := q.x * q.y
  let qyz := q.y * q.z
  let qwx := q.w * q.x
  let qwy := q.w * q.y
  let qwz := q.w * q.z
  ofColumns ![1 - 2 * (qyy + qzz), 2 * (qxy + qwz), 2 * (qxz - qwy), 0]
    ![2 * (qxy - qwz), 1 - 2 * (qxx + qzz), 2 * (qyz + qwx), 0]
    ![2 * (qxz + qwy), 2 * (qyz - qwx), 1 - 2 * (qxx + qyy), 0]
    ![0, 0, 0, 1]

end glm

/-! ## Constants of scene.h -/

section constants

variable {K : Type} [LinearOrderedField K]

/-- The constant ASPECT_RATIO. -/
def ASPECT_RATIO : K := 1

/-- The constant BOX_HALF_DIAGONAL (an unsigned int, converted to float where it
is used). -/
def BOX_HALF_DIAGONAL : Nat := 174

/-- Modelled from the spec: the constant MIN_NEAR_PLANE, defined in mesh.h, which
is not among the sources; 0.01 is the value in the comment at scene.h line 55. -/
def MIN_NEAR_PLANE : K := 1 / 100

/-- The macro M_PI of math.h. -/
def M_PI : K := 3.14159265358979323846

/-- The constant NEAR_PLANE_FACTOR. -/
def NEAR_PLANE_FACTOR : K := 99 / 100

/-- The constant FAR_PLANE_FACTOR. -/
def FAR_PLANE_FACTOR : K := 101 / 100

end constants

/-! ## The scene and the OpenGL log -/

/-- The part of class Mesh (mesh.h, not among the sources) that scene.h calls
with a result: the two bound oracles, taken as given functions of the model
matrix and the camera position in model coordinates. -/
structure Mesh (K : Type) where
  near_plane_bound : Mat4 K → Vec4 K → K
  far_plane_bound : Mat4 K → Vec4 K → K

/-- The data members of class Scene. -/
structure Scene (K : Type) where
  mesh : Mesh K
  scale_factor : K
  projection : Mat4 K
  camera_d : K
  near_plane_bound : K
  real_near_plane : K
  far_plane : K

/-- The calls into OpenGL, the shader and the mesh renderer that scene.h issues,
with the arguments that matter; uniforms are named by the string passed to
glGetUniformLocation. -/
inductive GLCall (K : Type) where
  | glClearColor (r g b a : K)
  | glEnable (cap : String)
  | glDisable (cap : String)
  | glDepthFunc (func : String)
  | glFrontFace (mode : String)
  | glCullFace (mode : String)
  | glPolygonMode (face mode : String)
  | glLightfv (pname : String) (v : Vec4 K)
  | glLightf (pname : String) (v : K)
  | glClear
  | glUseProgram (program : Nat)
  | glUniform1fv (program : Nat) (name : String) (v : K)
  | glUniformMatrix4fv (program : Nat) (name : String) (m : Mat4 K)
  | glUniformMatrix3fv (program : Nat) (name : String) (m : Mat3 K)
  | mesh_render (program : Nat)
  | check_gl_error
  | glFlush

section scene

variable {K : Type} [LinearOrderedField K]

/-- The constructor Scene::Scene(filename, scale_factor_, camera_d_).  The mesh
loaded from the file is passed in; the messages written to std::cerr are not
modelled. -/
def Scene.new (mesh : Mesh K) (scale_factor_ camera_d_ : K) : Scene K :=
  { mesh := mesh
    scale_factor := scale_factor_
    projection := 1
    camera_d := camera_d_
    near_plane_bound := camera_d_ - (BOX_HALF_DIAGONAL : K)
    real_near_plane := max MIN_NEAR_PLANE (camera_d_ - (BOX_HALF_DIAGONAL : K))
    far_plane := camera_d_ + (BOX_HALF_DIAGONAL : K) }

/-- The accessor Scene::get_near_plane. -/
def Scene.get_near_plane (sc : Scene K) : K := sc.real_near_plane

/-- The accessor Scene::get_far_plane. -/
def Scene.get_far_plane (sc : Scene K) : K := sc.far_plane

/-- The method Scene::gl_setup: the calls it appends to the log. -/
def gl_setup (gl : List (GLCall K)) : List (GLCall K) :=
  gl ++ [GLCall.glClearColor 0 0 0 1,
    GLCall.glEnable "GL_LIGHTING", GLCall.glEnable "GL_LIGHT0",
    GLCall.glEnable "GL_TEXTURE_2D", GLCall.glEnable "GL_NORMALIZE",
    GLCall.glEnable "GL_CULL_FACE", GLCall.glEnable "GL_DEPTH_TEST",
    GLCall.glDisable "GL_LINE_SMOOTH", GLCall.glDisable "GL_POLYGON_SMOOTH",
    GLCall.glDisable "GL_MULTISAMPLE", GLCall.glEnable "GL_BLEND",
    GLCall.glDepthFunc "GL_LEQUAL", GLCall.glFrontFace "GL_CCW",
    GLCall.glCullFace "GL_BACK", GLCall.glPolygonMode "GL_FRONT" "GL_FILL"]

/-- The method Scene::get_model_matrix(rx, ry, rz) (Euler form). -/
def get_model_matrix (lm : Libm K) (sc : Scene K) (rx ry rz : K) : Mat4 K :=
  rotate lm 1 rz ![0, 0, 1] * rotate lm 1 ry ![0, 1, 0] * rotate lm 1 rx ![1, 0, 0] *
    scale 1 ![sc.scale_factor, sc.scale_factor, sc.scale_factor]

/-- The method Scene::get_view_matrix(camera_x, camera_y, camera_z, rx, ry, rz)
(Euler form). -/
def get_view_matrix (lm : Libm K) (camera_x camera_y camera_z rx ry rz : K) : Mat4 K :=
  rotate lm 1 rz ![0, 0, 1] * rotate lm 1 ry ![0, 1, 0] * rotate lm 1 rx ![1, 0, 0] *
    translate 1 ![-camera_x, -camera_y, -camera_z]

/-- The method Scene::get_model_view_matrix (Euler form). -/
def get_model_view_matrix (lm : Libm K) (sc : Scene K)
    (model_rx model_ry model_rz camera_x camera_y camera_z camera_rx camera_ry camera_rz : K) :
    Mat4 K :=
  get_view_matrix lm camera_x camera_y camera_z camera_rx camera_ry camera_rz *
    get_model_matrix lm sc model_rx model_ry model_rz

/-- The method Scene::get_model_matrix(model) (quaternion form). -/
def get_model_matrix_q (sc : Scene K) (model : Quat K) : Mat4 K :=
  mat4_cast model * scale 1 ![sc.scale_factor, sc.scale_factor, sc.scale_factor]

/-- The method Scene::get_view_matrix(translate, camera) (quaternion form). -/
def get_view_matrix_q (translate_ : Vec3 K) (camera : Quat K) : Mat4 K :=
  mat4_cast camera * translate 1 translate_

/-- The method Scene::get_model_view_matrix(model, translate, camera)
(quaternion form). -/
def get_model_view_matrix_q (sc : Scene K) (model : Quat K) (translate_ : Vec3 K)
    (camera : Quat K) : Mat4 K :=
  get_view_matrix_q translate_ camera * get_model_matrix_q sc model

/-- The method Scene::get_inverse_model_matrix(model) (quaternion form). -/
def get_inverse_model_matrix (sc : Scene K) (model : Quat K) : Mat4 K :=
  scale 1 ![1 / sc.scale_factor, 1 / sc.scale_factor, 1 / sc.scale_factor] *
    mat4_cast model.inverse

/-- The camera position in model coordinates computed by the Euler overload of
Scene::projection_setup (lines 111-116). -/
def camera_pos_mc_euler (lm : Libm K) (sc : Scene K)
    (model_rx model_ry model_rz cam_x cam_y cam_z : K) : Vec4 K :=
  let model := get_model_matrix lm sc model_rx model_ry model_rz
  let inverse_model := inverse model
  let camera_pos : Vec4 K := ![cam_x, cam_y, cam_z, 1]
  Matrix.mulVec inverse_model camera_pos

/-- The camera position in model coordinates computed by the matrix overload of
Scene::projection_setup (lines 135-137). -/
def camera_pos_mc_matrix (inverse_model view_physics : Mat4 K) : Vec4 K :=
  let inverse_view := inverse view_physics
  Matrix.mulVec (inverse_model * inverse_view) ![0, 0, 0, 1]

/-- The Euler overload of Scene::projection_setup, on the scene and the OpenGL
log. -/
def projection_setup (lm : Libm K) (sc : Scene K) (gl : List (GLCall K))
    (fov model_rx model_ry model_rz cam_x cam_y cam_z _cam_rx _cam_ry _cam_rz : K) :
    Scene K × List (GLCall K) :=
  let gl := gl_setup gl
  let model := get_model_matrix lm sc model_rx model_ry model_rz
  let camera_pos_mc := camera_pos_mc_euler lm sc model_rx model_ry model_rz cam_x cam_y cam_z
  let near_plane_bound := sc.mesh.near_plane_bound model camera_pos_mc
  let real_near_plane := near_plane_bound * NEAR_PLANE_FACTOR
  let far_plane := sc.mesh.far_plane_bound model camera_pos_mc * FAR_PLANE_FACTOR
  let projection := perspective lm (fov * M_PI / 180) ASPECT_RATIO real_near_plane far_plane
  ({ sc with
      near_plane_bound := near_plane_bound
      real_near_plane := real_near_plane
      far_plane := far_plane
      projection := projection }, gl)

/-- The matrix overload of Scene::projection_setup. -/
def projection_setup_m (lm : Libm K) (sc : Scene K) (gl : List (GLCall K))
    (fov : K) (inverse_model view_physics : Mat4 K) : Scene K × List (GLCall K) :=
  let gl := gl_setup gl
  let camera_pos_mc := camera_pos_mc_matrix inverse_model view_physics
  let model := inverse inverse_model
  let near_plane_bound := sc.mesh.near_plane_bound model camera_pos_mc
  let real_near_plane := near_plane_bound * NEAR_PLANE_FACTOR
  let far_plane := sc.mesh.far_plane_bound model camera_pos_mc * FAR_PLANE_FACTOR
  let projection := perspective lm (fov * M_PI / 180) ASPECT_RATIO real_near_plane far_plane
  ({ sc with
      near_plane_bound := near_plane_bound
      real_near_plane := real_near_plane
      far_plane := far_plane
      projection := projection }, gl)

/-- The method Scene::gl_setup_lighting: the calls it appends to the log. -/
def gl_setup_lighting (gl : List (GLCall K)) (shader_program : Nat) : List (GLCall K) :=
  gl ++ [GLCall.glLightfv "GL_POSITION" ![0, 0, 0, 1],
    GLCall.glLightfv "GL_SPOT_DIRECTION" ![0, 0, 1, 0],
    GLCall.glLightf "GL_SPOT_CUTOFF" 10,
    GLCall.glLightf "GL_LINEAR_ATTENUATION" 0.0001,
    GLCall.glLightf "GL_QUADRATIC_ATTENUATION" 0.00000001,
    GLCall.glUniformMatrix4fv shader_program "LightModelViewMatrix" 1]

/-- The matrix overload of Scene::render (lines 166-211).  The method returns
void: its effect is the updated scene and the extended OpenGL log. -/
def render_m (lm : Libm K) (sc : Scene K) (gl : List (GLCall K)) (shader_program : Nat)
    (fov : K) (inverse_model_physics view_physics : Mat4 K) : Scene K × List (GLCall K) :=
  let inverse_model :=
    scale 1 ![1 / sc.scale_factor, 1 / sc.scale_factor, 1 / sc.scale_factor] *
      inverse_model_physics
  let st := projection_setup_m lm sc gl fov inverse_model view_physics
  let sc := st.1
  let gl := st.2 ++ [GLCall.glClear, GLCall.glUseProgram shader_program]
  let gl := gl_setup_lighting gl shader_program
  let model := inverse inverse_model
  let gl := gl ++ [GLCall.glUniform1fv shader_program "far_plane" sc.far_plane,
    GLCall.glUniform1fv shader_program "near_plane" sc.real_near_plane,
    GLCall.glUniformMatrix4fv shader_program "ViewMatrix" view_physics]
  let model_view := view_physics * model
  let gl := gl ++ [GLCall.glUniformMatrix4fv shader_program "ModelViewMatrix" model_view]
  let normal_matrix := inverseTranspose (mat3_of model_view)
  let gl := gl ++ [GLCall.glUniformMatrix3fv shader_program "NormalMatrix" normal_matrix]
  let model_view_projection := sc.projection * model_view
  let gl := gl ++ [GLCall.glUniformMatrix4fv shader_program "ModelViewProjectionMatrix"
    model_view_projection]
  let gl := gl ++ [GLCall.mesh_render shader_program, GLCall.check_gl_error, GLCall.glFlush]
  (sc, gl)

/-- The model-view matrix that the matrix overload of Scene::render uploads
(lines 167-168, 178 and 191). -/
def render_m_model_view (sc : Scene K) (inverse_model_physics view_physics : Mat4 K) : Mat4 K :=
  let inverse_model :=
    scale 1 ![1 / sc.scale_factor, 1 / sc.scale_factor, 1 / sc.scale_factor] *
      inverse_model_physics
  let model := inverse inverse_model
  view_physics * model

/-- The quaternion overload of Scene::render (lines 214-219). -/
def render_q (lm : Libm K) (sc : Scene K) (gl : List (GLCall K)) (shader_program : Nat)
    (fov : K) (model_q : Quat K) (translate_ : Vec3 K) (camera_q : Quat K) :
    Scene K × List (GLCall K) :=
  let view_physics := mat4_cast camera_q * translate 1 translate_
  let inverse_model := mat4_cast model_q.inverse
  render_m lm sc gl shader_program fov inverse_model view_physics

/-- The Euler overload of Scene::render (lines 222-267). -/
def render (lm : Libm K) (sc : Scene K) (gl : List (GLCall K)) (shader_program : Nat)
    (fov model_rx model_ry model_rz camera_x camera_y camera_z camera_rx camera_ry camera_rz : K) :
    Scene K × List (GLCall K) :=
  let st := projection_setup lm sc gl fov model_rx model_ry model_rz camera_x camera_y camera_z
    camera_rx camera_ry camera_rz
  let sc := st.1
  let gl := st.2 ++ [GLCall.glClear, GLCall.glUseProgram shader_program]
  let gl := gl_setup_lighting gl shader_program
  let gl := gl ++ [GLCall.glUniform1fv shader_program "far_plane" sc.far_plane,
    GLCall.glUniform1fv shader_program "near_plane" sc.real_near_plane]
  let view := get_view_matrix lm camera_x camera_y camera_z camera_rx camera_ry camera_rz
  let gl := gl ++ [GLCall.glUniformMatrix4fv shader_program "ViewMatrix" view]
  let model_view := get_model_view_matrix lm sc model_rx model_ry model_rz camera_x camera_y
    camera_z camera_rx camera_ry camera_rz
  let gl := gl ++ [GLCall.glUniformMatrix4fv shader_program "ModelViewMatrix" model_view]
  let normal_matrix := inverseTranspose (mat3_of model_view)
  let gl := gl ++ [GLCall.glUniformMatrix3fv shader_program "NormalMatrix" normal_matrix]
  let model_view_projection := sc.projection * model_view
  let gl := gl ++ [GLCall.glUniformMatrix4fv shader_program "ModelViewProjectionMatrix"
    model_view_projection]
  let gl := gl ++ [GLCall.mesh_render shader_program, GLCall.check_gl_error, GLCall.glFlush]
  (sc, gl)

/-! ## Point-cloud reconstruction -/

/-- The type unsigned char of the read-back buffer. -/
abbrev UChar := Fin 256

/-- The buffer float* data of write_point_cloud as far as it has been written,
with the running count data_count. -/
structure PointCloud (K : Type) where
  data : List K
  data_count : Nat

/-- The byte offset pos of line 388, for loop indices i (outer loop, below
height) and j (inner loop, below width). -/
def pixel_pos (height i j : Nat) : Nat := 4 * (j * height + i)

/-- The value gb of line 390, an int, decoded from the green and blue bytes at
offset pos. -/
def pixel_gb (rgba : Nat → UChar) (pos : Nat) : Int :=
  ((rgba (pos + 1)).val : Int) * 255 + ((rgba (pos + 2)).val : Int)

/-- The matrix axis_flip of line 382. -/
def axis_flip : Mat4 K := scale 1 ![-1, 1, 1]

/-- The body of the inner loop of write_point_cloud (lines 388-410) for loop
indices i and j.  The function glm::unProject, the viewport and the pixels that
glReadPixels returned (rgba, by byte offset) are given. -/
def write_pixel (sc : Scene K)
    (unProject : Vec3 K → Mat4 K → Mat4 K → (Fin 4 → Int) → Vec3 K)
    (viewport : Fin 4 → Int) (rgba : Nat → UChar) (model_view_matrix : Mat4 K)
    (height i j : Nat) (out : PointCloud K) : PointCloud K :=
  let pos := pixel_pos height i j
  let gb := pixel_gb rgba pos
  if gb = 0 then out
  else
    let t : K := (gb : K) / 65536
    let d : K := t * (sc.far_plane - sc.real_near_plane) + sc.real_near_plane
    let win : Vec3 K := ![(i : K), (j : K), t]
    let p := unProject win model_view_matrix sc.projection viewport
    let position : Vec4 K := ![p 0, p 1, p 2, 0]
    let position_cc : Vec4 K := Matrix.mulVec (axis_flip * model_view_matrix) position
    let position_cc : Vec4 K := Function.update position_cc 2 d
    { data := out.data ++ [position_cc 0, position_cc 1, position_cc 2,
        ((rgba (pos + 0)).val : K) / 256]
      data_count := out.data_count + 4 }

/-- The floats that the loop body appends for loop indices i and j: none for a
background pixel, otherwise x, y, z and intensity. -/
def pixel_sample (sc : Scene K)
    (unProject : Vec3 K → Mat4 K → Mat4 K → (Fin 4 → Int) → Vec3 K)
    (viewport : Fin 4 → Int) (rgba : Nat → UChar) (model_view_matrix : Mat4 K)
    (height i j : Nat) : List K :=
  (write_pixel sc unProject viewport rgba model_view_matrix height i j
    { data := [], data_count := 0 }).data

/-- The method Scene::write_point_cloud (lines 371-415): the floats written to
data and the returned data_count. -/
def write_point_cloud (lm : Libm K) (sc : Scene K)
    (unProject : Vec3 K → Mat4 K → Mat4 K → (Fin 4 → Int) → Vec3 K)
    (viewport : Fin 4 → Int) (rgba : Nat → UChar)
    (model_rx model_ry model_rz camera_x camera_y camera_z camera_rx camera_ry camera_rz : K)
    (width height : Nat) : PointCloud K :=
  let model_view_matrix := get_model_view_matrix lm sc model_rx model_ry model_rz camera_x
    camera_y camera_z camera_rx camera_ry camera_rz
  (List.range height).foldl
    (fun out i =>
      (List.range width).foldl
        (fun out j => write_pixel sc unProject viewport rgba model_view_matrix height i j out)
        out)
    { data := [], data_count := 0 }

end scene

/-! ## Fixtures for evaluation -/

/-- A mesh whose bound oracles return the fixed pair (near_bound, far_bound). -/
def mesh_const {K : Type} (near_bound far_bound : K) : Mesh K :=
  { near_plane_bound := fun _ _ => near_bound
    far_plane_bound := fun _ _ => far_bound }

/-- A libm over the rationals for evaluation: the argument a stands for the angle
2 atan a, whose cosine, sine and tangent are rational in a; at 0 the three
values are those of the real functions. -/
def libm_rat : Libm ℚ :=
  { cos := fun a => (1 - a ^ 2) / (1 + a ^ 2)
    sin := fun a => 2 * a / (1 + a ^ 2)
    tan := fun a => 2 * a / (1 - a ^ 2) }

/-- The libm with the sine negated: the opposite rotation angle. -/
def Libm.neg_sin {K : Type} [LinearOrderedField K] (lm : Libm K) : Libm K :=
  { cos := lm.cos, sin := fun a => -lm.sin a, tan := lm.tan }

/-- A unit quaternion with rational components. -/
def quat_half : Quat ℚ := { w := 1 / 2, x := 1 / 2, y := 1 / 2, z := 1 / 2 }

/-- A scene with scale factor 3, constructed at camera distance 200 over a mesh
with constant bounds. -/
def scene_fixture : Scene ℚ := Scene.new (mesh_const (100 / 99) 100) 3 200

/-- A scene with scale factor 1 whose planes were estimated from the oracle
bounds 100/99 and 100: real_near_plane = 1 and far_plane = 101. -/
def scene_1_101 : Scene ℚ :=
  (projection_setup libm_rat (Scene.new (mesh_const (100 / 99) 100) 1 200) [] 20
    0 0 0 0 0 200 0 0 0).1

/-- A read-back buffer in which every pixel has green = blue = 128 and
red = alpha = 0. -/
def rgba_gray : Nat → UChar :=
  fun p => if p % 4 = 1 ∨ p % 4 = 2 then 128 else 0

/-- A read-back buffer in which the red byte of the pixel at byte offset 4 k is
k and the other three bytes are 1. -/
def rgba_index : Nat → UChar :=
  fun p => if p % 4 = 0 then Fin.ofNat (p / 4) else 1

/-- A read-back buffer of four pixels: pixel 0 has green = blue = 128, pixel 1 is
background (green = blue = 0) with red 9, pixel 2 has green = blue = 64 and
pixel 3 has green = blue = 192. -/
def rgba_depths : Nat → UChar :=
  fun p =>
    if p % 4 = 1 ∨ p % 4 = 2 then
      (if p / 4 = 0 then 128 else if p / 4 = 2 then 64 else if p / 4 = 3 then 192 else 0)
    else if p = 4 then 9 else 0

/-- A mesh whose oracles report the point they are handed: the near bound is
x + 10 y and the far bound is z + 10 w of the camera position argument. -/
def mesh_probe : Mesh ℚ :=
  { near_plane_bound := fun _ p => p 0 + 10 * p 1
    far_plane_bound := fun _ p => p 2 + 10 * p 3 }

/-- A scene with scale factor 3 over the probing mesh. -/
def scene_probe : Scene ℚ := Scene.new mesh_probe 3 200

/-! ## Theorems -/

section theorems

variable {K : Type} [LinearOrderedField K]

/-! ### Clip-plane lemmas -/

/-- After the Euler overload of projection_setup the near plane is below the far
plane whenever the oracle bounds satisfy near_bound <= far_bound and
far_bound * FAR_PLANE_FACTOR > MIN_NEAR_PLANE. -/
theorem projection_setup_near_lt_far (lm : Libm K) (sc : Scene K) (gl : List (GLCall K))
    (fov model_rx model_ry model_rz cam_x cam_y cam_z cam_rx cam_ry cam_rz : K)
    (hle : sc.mesh.near_plane_bound (get_model_matrix lm sc model_rx model_ry model_rz)
        (camera_pos_mc_euler lm sc model_rx model_ry model_rz cam_x cam_y cam_z) ≤
      sc.mesh.far_plane_bound (get_model_matrix lm sc model_rx model_ry model_rz)
        (camera_pos_mc_euler lm sc model_rx model_ry model_rz cam_x cam_y cam_z))
    (hfar : sc.mesh.far_plane_bound (get_model_matrix lm sc model_rx model_ry model_rz)
        (camera_pos_mc_euler lm sc model_rx model_ry model_rz cam_x cam_y cam_z) *
      FAR_PLANE_FACTOR > MIN_NEAR_PLANE) :
    (projection_setup lm sc gl fov model_rx model_ry model_rz cam_x cam_y cam_z
        cam_rx cam_ry cam_rz).1.get_near_plane <
      (projection_setup lm sc gl fov model_rx model_ry model_rz cam_x cam_y cam_z
        cam_rx cam_ry cam_rz).1.get_far_plane := by
  simp only [projection_setup, Scene.get_near_plane, Scene.get_far_plane, NEAR_PLANE_FACTOR,
    FAR_PLANE_FACTOR, MIN_NEAR_PLANE] at hfar ⊢
  linarith

/-- After the matrix overload of projection_setup the near plane is below the far
plane under the same two conditions on the oracle bounds. -/
theorem projection_setup_m_near_lt_far (lm : Libm K) (sc : Scene K) (gl : List (GLCall K))
    (fov : K) (inverse_model view_physics : Mat4 K)
    (hle : sc.mesh.near_plane_bound (inverse inverse_model)
        (camera_pos_mc_matrix inverse_model view_physics) ≤
      sc.mesh.far_plane_bound (inverse inverse_model)
        (camera_pos_mc_matrix inverse_model view_physics))
    (hfar : sc.mesh.far_plane_bound (inverse inverse_model)
        (camera_pos_mc_matrix inverse_model view_physics) * FAR_PLANE_FACTOR > MIN_NEAR_PLANE) :
    (projection_setup_m lm sc gl fov inverse_model view_physics).1.get_near_plane <
      (projection_setup_m lm sc gl fov inverse_model view_physics).1.get_far_plane := by
  simp only [projection_setup_m, Scene.get_near_plane, Scene.get_far_plane, NEAR_PLANE_FACTOR,
    FAR_PLANE_FACTOR, MIN_NEAR_PLANE] at hfar ⊢
  linarith

/-! ### Matrix lemmas -/

/-- The function inverse is the matrix inverse of Mathlib. -/
theorem inverse_matrix_eq_inv (A : Mat4 K) : inverse A = A⁻¹ := by
  simp [inverse, Matrix.inv_def, Ring.inverse_eq_inv']

/-- A right inverse of a matrix is what glm::inverse returns. -/
theorem inverse_eq_of_mul_eq_one {A B : Mat4 K} (h : A * B = 1) : inverse A = B := by
  rw [inverse_matrix_eq_inv]
  exact Matrix.inv_eq_right_inv h

/-- On a unit quaternion glm::inverse is the conjugate. -/
theorem quat_inverse_of_unit (q : Quat K) (hq : Quat.dot q q = 1) :
    q.inverse = q.conjugate := by
  simp [Quat.inverse, hq]

/-- For a unit quaternion the rotation of the conjugate undoes the rotation. -/
theorem mat4_cast_conjugate_mul (q : Quat K) (hq : Quat.dot q q = 1) :
    mat4_cast q.conjugate * mat4_cast q = 1 := by
  have h : q.x * q.x + q.y * q.y + q.z * q.z + q.w * q.w = 1 := hq
  ext i j
  fin_cases i <;> fin_cases j <;>
    simp [Matrix.mul_apply, Fin.sum_univ_four, mat4_cast, ofColumns, Quat.conjugate]
  · linear_combination (4 * (q.y * q.y + q.z * q.z)) * h
  · linear_combination (-4 * (q.x * q.y)) * h
  · linear_combination (-4 * (q.x * q.z)) * h
  · linear_combination (-4 * (q.x * q.y)) * h
  · linear_combination (4 * (q.x * q.x + q.z * q.z)) * h
  · linear_combination (-4 * (q.y * q.z)) * h
  · linear_combination (-4 * (q.x * q.z)) * h
  · linear_combination (-4 * (q.y * q.z)) * h
  · linear_combination (4 * (q.x * q.x + q.y * q.y)) * h

/-- Scaling by s after scaling by 1/s is the identity, for s nonzero. -/
theorem scale_inv_mul_scale (s : K) (hs : s ≠ 0) :
    scale 1 ![1 / s, 1 / s, 1 / s] * scale 1 ![s, s, s] = (1 : Mat4 K) := by
  ext i j
  fin_cases i <;> fin_cases j <;>
    simp [Matrix.mul_apply, Fin.sum_univ_four, scale, ofColumns, hs, Matrix.vecHead, Matrix.vecTail]

/-- Scaling by 1/s after scaling by s is the identity, for s nonzero. -/
theorem scale_mul_scale_inv (s : K) (hs : s ≠ 0) :
    scale 1 ![s, s, s] * scale 1 ![1 / s, 1 / s, 1 / s] = (1 : Mat4 K) := by
  ext i j
  fin_cases i <;> fin_cases j <;>
    simp [Matrix.mul_apply, Fin.sum_univ_four, scale, ofColumns, hs, Matrix.vecHead,
      Matrix.vecTail]

/-- The inverse-model matrix times the quaternion model matrix is the identity. -/
theorem inverse_model_mul_model (sc : Scene K) (q : Quat K) (hq : Quat.dot q q = 1)
    (hs : sc.scale_factor ≠ 0) :
    get_inverse_model_matrix sc q * get_model_matrix_q sc q = 1 := by
  unfold get_inverse_model_matrix get_model_matrix_q
  rw [quat_inverse_of_unit q hq]
  calc scale 1 ![1 / sc.scale_factor, 1 / sc.scale_factor, 1 / sc.scale_factor] *
        mat4_cast q.conjugate *
        (mat4_cast q * scale 1 ![sc.scale_factor, sc.scale_factor, sc.scale_factor])
      = scale 1 ![1 / sc.scale_factor, 1 / sc.scale_factor, 1 / sc.scale_factor] *
        (mat4_cast q.conjugate * mat4_cast q) *
        scale 1 ![sc.scale_factor, sc.scale_factor, sc.scale_factor] := by
          simp only [Matrix.mul_assoc]
    _ = 1 := by
          rw [mat4_cast_conjugate_mul q hq, Matrix.mul_one, scale_inv_mul_scale _ hs]

/-- The entries of a rotation about the X axis. -/
theorem rotate_x_eq (lm : Libm K) (a : K) :
    rotate lm 1 a ![1, 0, 0] = ofColumns ![1, 0, 0, 0] ![0, lm.cos a, lm.sin a, 0]
      ![0, -lm.sin a, lm.cos a, 0] ![0, 0, 0, 1] := by
  ext i j
  fin_cases i <;> fin_cases j <;>
    simp [rotate, ofColumns, Matrix.vecHead, Matrix.vecTail]

/-- The entries of a rotation about the Y axis. -/
theorem rotate_y_eq (lm : Libm K) (a : K) :
    rotate lm 1 a ![0, 1, 0] = ofColumns ![lm.cos a, 0, -lm.sin a, 0] ![0, 1, 0, 0]
      ![lm.sin a, 0, lm.cos a, 0] ![0, 0, 0, 1] := by
  ext i j
  fin_cases i <;> fin_cases j <;>
    simp [rotate, ofColumns, Matrix.vecHead, Matrix.vecTail]

/-- The entries of a rotation about the Z axis. -/
theorem rotate_z_eq (lm : Libm K) (a : K) :
    rotate lm 1 a ![0, 0, 1] = ofColumns ![lm.cos a, lm.sin a, 0, 0] ![-lm.sin a, lm.cos a, 0, 0]
      ![0, 0, 1, 0] ![0, 0, 0, 1] := by
  ext i j
  fin_cases i <;> fin_cases j <;>
    simp [rotate, ofColumns, Matrix.vecHead, Matrix.vecTail]

/-- A rotation about X followed by the opposite rotation is the identity. -/
theorem rotate_mul_rotate_neg_x (lm : Libm K) (a : K)
    (h : lm.cos a ^ 2 + lm.sin a ^ 2 = 1) :
    rotate lm 1 a ![1, 0, 0] * rotate lm.neg_sin 1 a ![1, 0, 0] = 1 := by
  rw [rotate_x_eq, rotate_x_eq]
  ext i j
  fin_cases i <;> fin_cases j <;>
    simp [Matrix.mul_apply, Fin.sum_univ_four, ofColumns, Libm.neg_sin,
      Matrix.vecHead, Matrix.vecTail] <;>
    first | ring1 | linear_combination h

/-- A rotation about Y followed by the opposite rotation is the identity. -/
theorem rotate_mul_rotate_neg_y (lm : Libm K) (a : K)
    (h : lm.cos a ^ 2 + lm.sin a ^ 2 = 1) :
    rotate lm 1 a ![0, 1, 0] * rotate lm.neg_sin 1 a ![0, 1, 0] = 1 := by
  rw [rotate_y_eq, rotate_y_eq]
  ext i j
  fin_cases i <;> fin_cases j <;>
    simp [Matrix.mul_apply, Fin.sum_univ_four, ofColumns, Libm.neg_sin,
      Matrix.vecHead, Matrix.vecTail] <;>
    first | ring1 | linear_combination h

/-- A rotation about Z followed by the opposite rotation is the identity. -/
theorem rotate_mul_rotate_neg_z (lm : Libm K) (a : K)
    (h : lm.cos a ^ 2 + lm.sin a ^ 2 = 1) :
    rotate lm 1 a ![0, 0, 1] * rotate lm.neg_sin 1 a ![0, 0, 1] = 1 := by
  rw [rotate_z_eq, rotate_z_eq]
  ext i j
  fin_cases i <;> fin_cases j <;>
    simp [Matrix.mul_apply, Fin.sum_univ_four, ofColumns, Libm.neg_sin,
      Matrix.vecHead, Matrix.vecTail] <;>
    first | ring1 | linear_combination h

/-- A rotation of the identity fixes the homogeneous origin. -/
theorem rotate_mulVec_origin (lm : Libm K) (a : K) (axis : Vec3 K) :
    Matrix.mulVec (rotate lm 1 a axis) ![0, 0, 0, 1] = ![0, 0, 0, 1] := by
  ext i
  fin_cases i <;>
    simp [Matrix.mulVec, Matrix.dotProduct, Fin.sum_univ_four, rotate, ofColumns,
      Matrix.vecHead, Matrix.vecTail]

/-- Translating by -c sends the point c to the origin. -/
theorem translate_neg_mulVec (x y z : K) :
    Matrix.mulVec (translate 1 ![-x, -y, -z]) ![x, y, z, 1] = ![0, 0, 0, 1] := by
  ext i
  fin_cases i <;>
    simp [Matrix.mulVec, Matrix.dotProduct, Fin.sum_univ_four, translate, ofColumns,
      Matrix.vecHead, Matrix.vecTail]

/-- The Euler view matrix sends the camera position to the origin. -/
theorem view_mulVec_camera (lm : Libm K) (x y z rx ry rz : K) :
    Matrix.mulVec (get_view_matrix lm x y z rx ry rz) ![x, y, z, 1] = ![0, 0, 0, 1] := by
  unfold get_view_matrix
  rw [← Matrix.mulVec_mulVec, translate_neg_mulVec, ← Matrix.mulVec_mulVec,
    rotate_mulVec_origin, ← Matrix.mulVec_mulVec, rotate_mulVec_origin, rotate_mulVec_origin]

/-- An explicit right inverse of the Euler model matrix. -/
theorem model_matrix_right_inverse (lm : Libm K) (sc : Scene K) (rx ry rz : K)
    (hs : sc.scale_factor ≠ 0)
    (hx : lm.cos rx ^ 2 + lm.sin rx ^ 2 = 1) (hy : lm.cos ry ^ 2 + lm.sin ry ^ 2 = 1)
    (hz : lm.cos rz ^ 2 + lm.sin rz ^ 2 = 1) :
    get_model_matrix lm sc rx ry rz *
      (scale 1 ![1 / sc.scale_factor, 1 / sc.scale_factor, 1 / sc.scale_factor] *
        rotate lm.neg_sin 1 rx ![1, 0, 0] * rotate lm.neg_sin 1 ry ![0, 1, 0] *
        rotate lm.neg_sin 1 rz ![0, 0, 1]) = 1 := by
  unfold get_model_matrix
  have e : ∀ (a b c d d1 c1 b1 a1 : Mat4 K), d * d1 = 1 → c * c1 = 1 → b * b1 = 1 →
      a * a1 = 1 → a * b * c * d * (d1 * c1 * b1 * a1) = 1 := by
    intro a b c d d1 c1 b1 a1 hd hc hb ha
    calc a * b * c * d * (d1 * c1 * b1 * a1)
        = a * (b * (c * (d * d1) * c1) * b1) * a1 := by simp only [Matrix.mul_assoc]
      _ = 1 := by rw [hd, Matrix.mul_one, hc, Matrix.mul_one, hb, Matrix.mul_one, ha]
  exact e _ _ _ _ _ _ _ _ (scale_mul_scale_inv _ hs) (rotate_mul_rotate_neg_x lm rx hx)
    (rotate_mul_rotate_neg_y lm ry hy) (rotate_mul_rotate_neg_z lm rz hz)

/-- Translating by t and then by -t is the identity. -/
theorem translate_mul_translate_neg (t : Vec3 K) :
    translate 1 t * translate 1 ![-t 0, -t 1, -t 2] = (1 : Mat4 K) := by
  ext i j
  fin_cases i <;> fin_cases j <;>
    simp [Matrix.mul_apply, Fin.sum_univ_four, translate, ofColumns, Matrix.vecHead,
      Matrix.vecTail]

/-- An explicit right inverse of the quaternion view matrix, for a unit camera
quaternion. -/
theorem view_matrix_q_right_inverse (t : Vec3 K) (qc : Quat K) (hq : Quat.dot qc qc = 1) :
    get_view_matrix_q t qc * (translate 1 ![-t 0, -t 1, -t 2] * mat4_cast qc.conjugate) = 1 := by
  have h1 : mat4_cast qc * mat4_cast qc.conjugate = 1 :=
    Matrix.mul_eq_one_comm.mp (mat4_cast_conjugate_mul qc hq)
  unfold get_view_matrix_q
  calc mat4_cast qc * translate 1 t * (translate 1 ![-t 0, -t 1, -t 2] * mat4_cast qc.conjugate)
      = mat4_cast qc * (translate 1 t * translate 1 ![-t 0, -t 1, -t 2]) *
          mat4_cast qc.conjugate := by simp only [Matrix.mul_assoc]
    _ = 1 := by rw [translate_mul_translate_neg, Matrix.mul_one, h1]

/-- The function glm::inverse undoes a matrix that has a right inverse. -/
theorem inverse_mulVec_mulVec {A B : Mat4 K} (h : A * B = 1) (v : Vec4 K) :
    Matrix.mulVec (inverse A) (Matrix.mulVec A v) = v := by
  rw [inverse_eq_of_mul_eq_one h, Matrix.mulVec_mulVec, Matrix.mul_eq_one_comm.mp h,
    Matrix.one_mulVec]

/-! ### Point-cloud lemmas -/

/-- The decoded value gb is 0 exactly when the green and the blue byte are both 0. -/
theorem pixel_gb_eq_zero_iff (rgba : Nat → UChar) (pos : Nat) :
    pixel_gb rgba pos = 0 ↔ (rgba (pos + 1)).val = 0 ∧ (rgba (pos + 2)).val = 0 := by
  unfold pixel_gb
  omega

/-- The loop body appends the sample of its pixel and advances data_count by its length. -/
theorem write_pixel_eq (sc : Scene K)
    (unProject : Vec3 K → Mat4 K → Mat4 K → (Fin 4 → Int) → Vec3 K)
    (viewport : Fin 4 → Int) (rgba : Nat → UChar) (mv : Mat4 K)
    (height i j : Nat) (out : PointCloud K) :
    write_pixel sc unProject viewport rgba mv height i j out =
      { data := out.data ++ pixel_sample sc unProject viewport rgba mv height i j
        data_count := out.data_count +
          (if pixel_gb rgba (pixel_pos height i j) = 0 then 0 else 4) } := by
  unfold pixel_sample write_pixel
  by_cases h : pixel_gb rgba (pixel_pos height i j) = 0
  · simp [h]
  · simp [h]

/-- A sample has no float for a background pixel and four otherwise. -/
theorem pixel_sample_length (sc : Scene K)
    (unProject : Vec3 K → Mat4 K → Mat4 K → (Fin 4 → Int) → Vec3 K)
    (viewport : Fin 4 → Int) (rgba : Nat → UChar) (mv : Mat4 K)
    (height i j : Nat) :
    (pixel_sample sc unProject viewport rgba mv height i j).length =
      if pixel_gb rgba (pixel_pos height i j) = 0 then 0 else 4 := by
  unfold pixel_sample write_pixel
  by_cases h : pixel_gb rgba (pixel_pos height i j) = 0
  · simp [h]
  · simp [h]

/-- Multiplying by axis_flip negates the first coordinate. -/
theorem axis_flip_mulVec (mv : Mat4 K) (v : Vec4 K) :
    Matrix.mulVec (axis_flip * mv) v =
      ![-(Matrix.mulVec mv v) 0, (Matrix.mulVec mv v) 1, (Matrix.mulVec mv v) 2,
        (Matrix.mulVec mv v) 3] := by
  rw [← Matrix.mulVec_mulVec]
  ext i
  fin_cases i <;>
    simp [axis_flip, scale, ofColumns, Matrix.mulVec, Matrix.dotProduct, Fin.sum_univ_four,
      Matrix.vecHead, Matrix.vecTail]

/-- The four floats emitted for a pixel that is not background. -/
theorem pixel_sample_of_ne_zero (sc : Scene K)
    (unProject : Vec3 K → Mat4 K → Mat4 K → (Fin 4 → Int) → Vec3 K)
    (viewport : Fin 4 → Int) (rgba : Nat → UChar) (mv : Mat4 K)
    (height i j : Nat) (h : pixel_gb rgba (pixel_pos height i j) ≠ 0) :
    pixel_sample sc unProject viewport rgba mv height i j =
      [-(Matrix.mulVec mv
          ![unProject ![(i : K), (j : K), (pixel_gb rgba (pixel_pos height i j) : K) / 65536]
              mv sc.projection viewport 0,
            unProject ![(i : K), (j : K), (pixel_gb rgba (pixel_pos height i j) : K) / 65536]
              mv sc.projection viewport 1,
            unProject ![(i : K), (j : K), (pixel_gb rgba (pixel_pos height i j) : K) / 65536]
              mv sc.projection viewport 2, 0]) 0,
        (Matrix.mulVec mv
          ![unProject ![(i : K), (j : K), (pixel_gb rgba (pixel_pos height i j) : K) / 65536]
              mv sc.projection viewport 0,
            unProject ![(i : K), (j : K), (pixel_gb rgba (pixel_pos height i j) : K) / 65536]
              mv sc.projection viewport 1,
            unProject ![(i : K), (j : K), (pixel_gb rgba (pixel_pos height i j) : K) / 65536]
              mv sc.projection viewport 2, 0]) 1,
        (pixel_gb rgba (pixel_pos height i j) : K) / 65536 *
          (sc.far_plane - sc.real_near_plane) + sc.real_near_plane,
        ((rgba (pixel_pos height i j)).val : K) / 256] := by
  unfold pixel_sample write_pixel
  simp only [h, if_false, List.nil_append, axis_flip_mulVec]
  simp

/-- The inner loop appends the samples of its pixels in order. -/
theorem foldl_write_pixel (sc : Scene K)
    (unProject : Vec3 K → Mat4 K → Mat4 K → (Fin 4 → Int) → Vec3 K)
    (viewport : Fin 4 → Int) (rgba : Nat → UChar) (mv : Mat4 K)
    (height i : Nat) (l : List Nat) (out : PointCloud K) :
    l.foldl (fun out j => write_pixel sc unProject viewport rgba mv height i j out) out =
      { data := out.data ++ l.flatMap (pixel_sample sc unProject viewport rgba mv height i)
        data_count := out.data_count +
          (l.map fun j => if pixel_gb rgba (pixel_pos height i j) = 0 then 0 else 4).sum } := by
  induction l generalizing out with
  | nil => simp
  | cons j l ih =>
    rw [List.foldl_cons, ih, write_pixel_eq]
    simp [List.append_assoc, Nat.add_assoc]

/-- The outer loop appends the samples of the inner loops in order. -/
theorem foldl_rows (sc : Scene K)
    (unProject : Vec3 K → Mat4 K → Mat4 K → (Fin 4 → Int) → Vec3 K)
    (viewport : Fin 4 → Int) (rgba : Nat → UChar) (mv : Mat4 K)
    (height : Nat) (cols rows : List Nat) (out : PointCloud K) :
    rows.foldl
        (fun out i =>
          cols.foldl (fun out j => write_pixel sc unProject viewport rgba mv height i j out) out)
        out =
      { data := out.data ++ rows.flatMap fun i =>
          cols.flatMap (pixel_sample sc unProject viewport rgba mv height i)
        data_count := out.data_count +
          (rows.map fun i =>
            (cols.map fun j =>
              if pixel_gb rgba (pixel_pos height i j) = 0 then 0 else 4).sum).sum } := by
  induction rows generalizing out with
  | nil => simp
  | cons i rows ih =>
    rw [List.foldl_cons, ih, foldl_write_pixel]
    simp [List.append_assoc, Nat.add_assoc]

/-- The output of write_point_cloud: the samples in loop order, and their total length. -/
theorem write_point_cloud_eq (lm : Libm K) (sc : Scene K)
    (unProject : Vec3 K → Mat4 K → Mat4 K → (Fin 4 → Int) → Vec3 K)
    (viewport : Fin 4 → Int) (rgba : Nat → UChar)
    (model_rx model_ry model_rz camera_x camera_y camera_z camera_rx camera_ry camera_rz : K)
    (width height : Nat) :
    write_point_cloud lm sc unProject viewport rgba model_rx model_ry model_rz camera_x camera_y
        camera_z camera_rx camera_ry camera_rz width height =
      { data := (List.range height).flatMap fun i =>
          (List.range width).flatMap
            (pixel_sample sc unProject viewport rgba
              (get_model_view_matrix lm sc model_rx model_ry model_rz camera_x camera_y
                camera_z camera_rx camera_ry camera_rz) height i)
        data_count :=
          ((List.range height).map fun i =>
            ((List.range width).map fun j =>
              if pixel_gb rgba (pixel_pos height i j) = 0 then 0 else 4).sum).sum } := by
  unfold write_point_cloud
  rw [foldl_rows]
  simp

/-- A list sum over List.range as a Finset sum. -/
theorem sum_map_range (f : Nat → Nat) (n : Nat) :
    ((List.range n).map f).sum = ∑ k in Finset.range n, f k := by
  induction n with
  | zero => simp
  | succ n ih => simp [List.range_succ, Finset.sum_range_succ, ih]

/-- The offsets j * height + i, for i below height and j below width, enumerate
the pixels below width * height once each. -/
theorem sum_column_major (f : Nat → Nat) (width height : Nat) :
    ∑ i in Finset.range height, ∑ j in Finset.range width, f (j * height + i) =
      ∑ k in Finset.range (width * height), f k := by
  rw [Finset.sum_comm]
  induction width with
  | zero => simp
  | succ w ih =>
    rw [Finset.sum_range_succ, ih, Nat.succ_mul, Finset.sum_range_add]

/-- The returned count is 4 times the number of pixels of the buffer that are not background. -/
theorem write_point_cloud_count (lm : Libm K) (sc : Scene K)
    (unProject : Vec3 K → Mat4 K → Mat4 K → (Fin 4 → Int) → Vec3 K)
    (viewport : Fin 4 → Int) (rgba : Nat → UChar)
    (model_rx model_ry model_rz camera_x camera_y camera_z camera_rx camera_ry camera_rz : K)
    (width height : Nat) :
    (write_point_cloud lm sc unProject viewport rgba model_rx model_ry model_rz camera_x camera_y
        camera_z camera_rx camera_ry camera_rz width height).data_count =
      4 * ((Finset.range (width * height)).filter fun k =>
        ¬ ((rgba (4 * k + 1)).val = 0 ∧ (rgba (4 * k + 2)).val = 0)).card := by
  rw [write_point_cloud_eq]
  simp only [sum_map_range, pixel_pos]
  rw [sum_column_major (fun k => if pixel_gb rgba (4 * k) = 0 then 0 else 4) width height,
    Finset.card_filter, Finset.mul_sum]
  refine Finset.sum_congr rfl fun k _ => ?_
  by_cases h : pixel_gb rgba (4 * k) = 0
  · have h2 := (pixel_gb_eq_zero_iff rgba (4 * k)).mp h
    simp [h, h2]
  · have h2 := mt (pixel_gb_eq_zero_iff rgba (4 * k)).mpr h
    simp [h, h2]

/-- The returned count is the number of floats written. -/
theorem write_point_cloud_length (lm : Libm K) (sc : Scene K)
    (unProject : Vec3 K → Mat4 K → Mat4 K → (Fin 4 → Int) → Vec3 K)
    (viewport : Fin 4 → Int) (rgba : Nat → UChar)
    (model_rx model_ry model_rz camera_x camera_y camera_z camera_rx camera_ry camera_rz : K)
    (width height : Nat) :
    (write_point_cloud lm sc unProject viewport rgba model_rx model_ry model_rz camera_x camera_y
        camera_z camera_rx camera_ry camera_rz width height).data.length =
    (write_point_cloud lm sc unProject viewport rgba model_rx model_ry model_rz camera_x camera_y
        camera_z camera_rx camera_ry camera_rz width height).data_count := by
  rw [write_point_cloud_eq]
  simp [List.length_flatMap, pixel_sample_length, Function.comp_def]

/-- In a concatenation of lists of length 0 or 4, each aligned block of four is one of the lists. -/
theorem flatMap_block {α ι : Type} (g : ι → List α) (l : List ι)
    (hg : ∀ a ∈ l, (g a).length = 0 ∨ (g a).length = 4) (n : Nat)
    (hn : 4 * n + 3 < (l.flatMap g).length) :
    ∃ a ∈ l, (g a).length = 4 ∧ ((l.flatMap g).drop (4 * n)).take 4 = g a := by
  induction l generalizing n with
  | nil => simp at hn
  | cons a l ih =>
    have hl : ∀ b ∈ l, (g b).length = 0 ∨ (g b).length = 4 :=
      fun b hb => hg b (List.mem_cons_of_mem a hb)
    rw [List.flatMap_cons] at hn ⊢
    rcases hg a (List.mem_cons_self a l) with h0 | h4
    · have hnil : g a = [] := List.length_eq_zero.mp h0
      rw [hnil, List.nil_append] at hn ⊢
      obtain ⟨b, hb, hb4, hbe⟩ := ih hl n hn
      exact ⟨b, List.mem_cons_of_mem a hb, hb4, hbe⟩
    · cases n with
      | zero =>
        refine ⟨a, List.mem_cons_self a l, h4, ?_⟩
        rw [Nat.mul_zero, List.drop_zero, List.take_append_of_le_length (by omega)]
        exact List.take_of_length_le (by omega)
      | succ m =>
        have hdrop : List.drop (4 * (m + 1)) (g a ++ l.flatMap g) =
            List.drop (4 * m) (l.flatMap g) := by
          rw [List.drop_append_eq_append_drop, List.drop_of_length_le (by omega), h4,
            List.nil_append]
          congr 1
        rw [List.length_append, h4] at hn
        obtain ⟨b, hb, hb4, hbe⟩ := ih hl m (by omega)
        exact ⟨b, List.mem_cons_of_mem a hb, hb4, by rw [hdrop, hbe]⟩

/-- Each block of four floats of the output is the sample of a pixel of the
loops that is not background. -/
theorem write_point_cloud_block (lm : Libm K) (sc : Scene K)
    (unProject : Vec3 K → Mat4 K → Mat4 K → (Fin 4 → Int) → Vec3 K)
    (viewport : Fin 4 → Int) (rgba : Nat → UChar)
    (model_rx model_ry model_rz camera_x camera_y camera_z camera_rx camera_ry camera_rz : K)
    (width height n : Nat)
    (hn : 4 * n + 3 < (write_point_cloud lm sc unProject viewport rgba model_rx model_ry model_rz
        camera_x camera_y camera_z camera_rx camera_ry camera_rz width height).data_count) :
    ∃ i j, i < height ∧ j < width ∧ pixel_gb rgba (pixel_pos height i j) ≠ 0 ∧
      ((write_point_cloud lm sc unProject viewport rgba model_rx model_ry model_rz
        camera_x camera_y camera_z camera_rx camera_ry camera_rz width height).data.drop
          (4 * n)).take 4 =
        pixel_sample sc unProject viewport rgba
          (get_model_view_matrix lm sc model_rx model_ry model_rz camera_x camera_y
            camera_z camera_rx camera_ry camera_rz) height i j := by
  rw [← write_point_cloud_length] at hn
  rw [write_point_cloud_eq] at hn ⊢
  simp only at hn ⊢
  have hlen : ∀ i ∈ List.range height, ∀ j ∈ List.range width,
      (pixel_sample sc unProject viewport rgba
        (get_model_view_matrix lm sc model_rx model_ry model_rz camera_x camera_y
          camera_z camera_rx camera_ry camera_rz) height i j).length = 0 ∨
      (pixel_sample sc unProject viewport rgba
        (get_model_view_matrix lm sc model_rx model_ry model_rz camera_x camera_y
          camera_z camera_rx camera_ry camera_rz) height i j).length = 4 := by
    intro i _ j _
    rw [pixel_sample_length]
    by_cases h : pixel_gb rgba (pixel_pos height i j) = 0
    · left; simp [h]
    · right; simp [h]
  have hpairs : ∀ g : Nat → Nat → List K,
      ((List.range height).flatMap fun i => (List.range width).flatMap (g i)) =
        ((List.range height).flatMap fun i => (List.range width).map fun j => (i, j)).flatMap
          fun p => g p.1 p.2 := by
    intro g
    rw [List.flatMap_assoc]
    congr 1
    funext i
    induction List.range width with
    | nil => rfl
    | cons j l ih => simp [List.flatMap_cons, ih]
  rw [hpairs] at hn ⊢
  obtain ⟨p, hp, hp4, hpe⟩ := flatMap_block _ _ (by
    intro p hp
    simp only [List.mem_flatMap, List.mem_map] at hp
    obtain ⟨i, hi, j, hj, rfl⟩ := hp
    exact hlen i hi j hj) n hn
  simp only [List.mem_flatMap, List.mem_map, List.mem_range] at hp
  obtain ⟨i, hi, j, hj, rfl⟩ := hp
  refine ⟨i, j, hi, hj, ?_, hpe⟩
  intro h0
  rw [pixel_sample_length, if_pos h0] at hp4
  omega

/-- The model-view matrix for zero angles, scale factor 1 and the camera at (1, 2, 0). -/
theorem model_view_fixture :
    get_model_view_matrix libm_rat scene_1_101 0 0 0 1 2 0 0 0 0 =
      ofColumns ![1, 0, 0, 0] ![0, 1, 0, 0] ![0, 0, 1, 0] ![-1, -2, 0, 1] := by
  have hx : rotate libm_rat 1 0 ![1, 0, 0] = 1 := by
    rw [rotate_x_eq]
    ext i j
    fin_cases i <;> fin_cases j <;>
      simp [ofColumns, libm_rat, Matrix.vecHead, Matrix.vecTail]
  have hy : rotate libm_rat 1 0 ![0, 1, 0] = 1 := by
    rw [rotate_y_eq]
    ext i j
    fin_cases i <;> fin_cases j <;>
      simp [ofColumns, libm_rat, Matrix.vecHead, Matrix.vecTail]
  have hz : rotate libm_rat 1 0 ![0, 0, 1] = 1 := by
    rw [rotate_z_eq]
    ext i j
    fin_cases i <;> fin_cases j <;>
      simp [ofColumns, libm_rat, Matrix.vecHead, Matrix.vecTail]
  have hs : scene_1_101.scale_factor = 1 := rfl
  unfold get_model_view_matrix get_view_matrix get_model_matrix
  rw [hx, hy, hz, hs]
  ext i j
  fin_cases i <;> fin_cases j <;>
    simp [Matrix.mul_apply, Fin.sum_univ_four, translate, scale, ofColumns, Matrix.vecHead,
      Matrix.vecTail]

/-- No pixel of the buffer rgba_index is background. -/
theorem pixel_gb_rgba_index (pos : Nat) (h : pos % 4 = 0) : pixel_gb rgba_index pos = 256 := by
  have h1 : (pos + 1) % 4 ≠ 0 := by omega
  have h2 : (pos + 2) % 4 ≠ 0 := by omega
  simp [pixel_gb, rgba_index, h1, h2]

/-! ### Probe lemmas -/

/-- The Euler model matrix of the probing scene for a quarter turn about Z sends
the point (1, 2, 3) to the camera position (-6, 3, 9). -/
theorem model_matrix_probe :
    Matrix.mulVec (get_model_matrix libm_rat scene_probe 0 0 1) ![1, 2, 3, 1] =
      ![-6, 3, 9, 1] := by
  unfold get_model_matrix
  rw [rotate_x_eq, rotate_y_eq, rotate_z_eq]
  ext i
  fin_cases i <;>
    simp [Matrix.mulVec, Matrix.dotProduct, Matrix.mul_apply, Fin.sum_univ_four, scale,
      ofColumns, libm_rat, scene_probe, Scene.new, Matrix.vecHead, Matrix.vecTail] <;>
    norm_num

/-- The quaternion view matrix for translation (-9, -3, -6) sends the point
(9, 3, 6) to the origin. -/
theorem view_matrix_probe :
    Matrix.mulVec (get_view_matrix_q ![-9, -3, -6] quat_half) ![9, 3, 6, 1] =
      ![0, 0, 0, 1] := by
  unfold get_view_matrix_q
  ext i
  fin_cases i <;>
    simp [Matrix.mulVec, Matrix.dotProduct, Matrix.mul_apply, Fin.sum_univ_four, translate,
      mat4_cast, ofColumns, quat_half, Matrix.vecHead, Matrix.vecTail] <;>
    norm_num

/-- The inverse-model matrix of the probing scene sends the point (9, 3, 6) to
(1, 2, 3). -/
theorem inverse_model_probe :
    Matrix.mulVec (get_inverse_model_matrix scene_probe quat_half) ![9, 3, 6, 1] =
      ![1, 2, 3, 1] := by
  unfold get_inverse_model_matrix
  ext i
  fin_cases i <;>
    simp [Matrix.mulVec, Matrix.dotProduct, Matrix.mul_apply, Fin.sum_univ_four, scale,
      mat4_cast, ofColumns, quat_half, Quat.inverse, Quat.conjugate, Quat.dot, scene_probe,
      Scene.new, Matrix.vecHead, Matrix.vecTail] <;>
    norm_num

/-! ### Claims -/

/-- C1 (failing input): when the mesh oracle returns near_bound = 0.01 and
far_bound = 1 (near_bound <= far_bound and far_bound * FAR_PLANE_FACTOR >
MIN_NEAR_PLANE), both overloads of projection_setup store real_near_plane =
0.0099, which is below MIN_NEAR_PLANE: the floor that the constructor applies
is not applied after estimation. -/
theorem projection_setup_below_min_near_plane (lm : Libm K) (scale_factor_ camera_d_ : K)
    (gl : List (GLCall K))
    (fov model_rx model_ry model_rz cam_x cam_y cam_z cam_rx cam_ry cam_rz : K)
    (inverse_model view_physics : Mat4 K) :
    ((1 / 100 : K) ≤ 1 ∧ (1 : K) * FAR_PLANE_FACTOR > MIN_NEAR_PLANE) ∧
    (projection_setup lm (Scene.new (mesh_const (1 / 100) 1) scale_factor_ camera_d_) gl fov
        model_rx model_ry model_rz cam_x cam_y cam_z cam_rx cam_ry cam_rz).1.get_near_plane
      = 99 / 10000 ∧
    (projection_setup_m lm (Scene.new (mesh_const (1 / 100) 1) scale_factor_ camera_d_) gl fov
        inverse_model view_physics).1.get_near_plane = 99 / 10000 ∧
    (99 / 10000 : K) < MIN_NEAR_PLANE := by
  refine ⟨⟨by norm_num, by norm_num [FAR_PLANE_FACTOR, MIN_NEAR_PLANE]⟩, ?_, ?_, ?_⟩
  · simp only [projection_setup, Scene.get_near_plane, Scene.new, mesh_const, NEAR_PLANE_FACTOR]
    norm_num
  · simp only [projection_setup_m, Scene.get_near_plane, Scene.new, mesh_const,
      NEAR_PLANE_FACTOR]
    norm_num
  · norm_num [MIN_NEAR_PLANE]

/-- C2 (counterexample): with the oracle returning near_bound = 2 and
far_bound = 1, so that far_bound <= real_near_plane = 1.98, the Euler overload
of render still extends the log, replaces the projection and issues the mesh
draw call. -/
theorem render_draws_with_invalid_planes :
    (1 : ℚ) ≤ (render libm_rat (Scene.new (mesh_const 2 1) 1 200) [] 0 20
        0 0 0 0 0 0 0 0 0).1.real_near_plane ∧
    GLCall.mesh_render 0 ∈ (render libm_rat (Scene.new (mesh_const 2 1) 1 200) [] 0 20
        0 0 0 0 0 0 0 0 0).2 ∧
    ¬ ((render libm_rat (Scene.new (mesh_const 2 1) 1 200) [] 0 20
          0 0 0 0 0 0 0 0 0).2 = [] ∨
       (render libm_rat (Scene.new (mesh_const 2 1) 1 200) [] 0 20
          0 0 0 0 0 0 0 0 0).1.projection
         = (Scene.new (mesh_const (2 : ℚ) 1) 1 200).projection) := by
  refine ⟨?_, ?_, ?_⟩
  · simp only [render, projection_setup, Scene.new, mesh_const, NEAR_PLANE_FACTOR]
    norm_num
  · simp [render, gl_setup_lighting]
  · rintro (h | h)
    · simp [render, gl_setup_lighting] at h
    · have h33 := congrFun (congrFun h 3) 3
      simp [render, projection_setup, Scene.new, perspective, ofColumns] at h33

/-- C2 (amended): render has no failure path.  For every oracle, pose and log,
whatever the order of the two bounds, both the Euler and the matrix overload
store real_near_plane = near_bound * NEAR_PLANE_FACTOR, far_plane = far_bound *
FAR_PLANE_FACTOR and the perspective matrix built from them, keep the earlier
log as a prefix, upload the model-view-projection matrix built from that
projection and issue the mesh draw call. -/
theorem render_always_draws (lm : Libm K) (sc : Scene K) (gl : List (GLCall K))
    (shader_program : Nat)
    (fov model_rx model_ry model_rz camera_x camera_y camera_z camera_rx camera_ry camera_rz : K)
    (inverse_model_physics view_physics : Mat4 K) :
    (let model := get_model_matrix lm sc model_rx model_ry model_rz
     let pos := camera_pos_mc_euler lm sc model_rx model_ry model_rz camera_x camera_y camera_z
     let near := sc.mesh.near_plane_bound model pos * NEAR_PLANE_FACTOR
     let far := sc.mesh.far_plane_bound model pos * FAR_PLANE_FACTOR
     let proj := perspective lm (fov * M_PI / 180) ASPECT_RATIO near far
     let r := render lm sc gl shader_program fov model_rx model_ry model_rz camera_x camera_y
       camera_z camera_rx camera_ry camera_rz
     r.1.real_near_plane = near ∧ r.1.far_plane = far ∧ r.1.projection = proj ∧
     (∃ calls, r.2 = gl ++ calls ∧
       GLCall.glUniformMatrix4fv shader_program "ModelViewProjectionMatrix"
         (proj * get_model_view_matrix lm sc model_rx model_ry model_rz camera_x camera_y
           camera_z camera_rx camera_ry camera_rz) ∈ calls ∧
       GLCall.mesh_render shader_program ∈ calls)) ∧
    (let inverse_model :=
       scale 1 ![1 / sc.scale_factor, 1 / sc.scale_factor, 1 / sc.scale_factor] *
         inverse_model_physics
     let model := inverse inverse_model
     let pos := camera_pos_mc_matrix inverse_model view_physics
     let near := sc.mesh.near_plane_bound model pos * NEAR_PLANE_FACTOR
     let far := sc.mesh.far_plane_bound model pos * FAR_PLANE_FACTOR
     let proj := perspective lm (fov * M_PI / 180) ASPECT_RATIO near far
     let r := render_m lm sc gl shader_program fov inverse_model_physics view_physics
     r.1.real_near_plane = near ∧ r.1.far_plane = far ∧ r.1.projection = proj ∧
     (∃ calls, r.2 = gl ++ calls ∧
       GLCall.glUniformMatrix4fv shader_program "ModelViewProjectionMatrix"
         (proj * render_m_model_view sc inverse_model_physics view_physics) ∈ calls ∧
       GLCall.mesh_render shader_program ∈ calls)) := by
  constructor
  · refine ⟨rfl, rfl, rfl, ?_⟩
    simp only [render, projection_setup, gl_setup, gl_setup_lighting, List.append_assoc]
    exact ⟨_, rfl, by simp [get_model_view_matrix, get_model_matrix], by simp⟩
  · refine ⟨rfl, rfl, rfl, ?_⟩
    simp only [render_m, projection_setup_m, gl_setup, gl_setup_lighting, List.append_assoc]
    exact ⟨_, rfl, by simp [render_m_model_view], by simp⟩

/-- C3: for every unit model quaternion q, camera quaternion qc, translation t
and scale factor s != 0, the model-view matrix that the quaternion overload of
render uploads, view_physics * inverse(scale(1/s) * mat4_cast(inverse(q))) with
view_physics = mat4_cast(qc) * translate(t), equals get_model_view_matrix(q, t,
qc); equivalently, inverting the inverse-model matrix gives get_model_matrix(q) =
mat4_cast(q) * scale(s). -/
theorem quaternion_paths_agree (lm : Libm K) (sc : Scene K) (gl : List (GLCall K))
    (shader_program : Nat) (fov : K) (q qc : Quat K) (t : Vec3 K)
    (hq : Quat.dot q q = 1) (hs : sc.scale_factor ≠ 0) :
    (∃ calls, (render_q lm sc gl shader_program fov q t qc).2 = gl ++ calls ∧
      GLCall.glUniformMatrix4fv shader_program "ModelViewMatrix"
        (get_model_view_matrix_q sc q t qc) ∈ calls) ∧
    render_m_model_view sc (mat4_cast q.inverse) (mat4_cast qc * translate 1 t)
      = get_model_view_matrix_q sc q t qc ∧
    inverse (get_inverse_model_matrix sc q) = get_model_matrix_q sc q := by
  have h := inverse_eq_of_mul_eq_one (inverse_model_mul_model sc q hq hs)
  have hmv : render_m_model_view sc (mat4_cast q.inverse) (mat4_cast qc * translate 1 t)
      = get_model_view_matrix_q sc q t qc := by
    unfold render_m_model_view get_model_view_matrix_q get_view_matrix_q
    unfold get_inverse_model_matrix at h
    simp only [h]
  refine ⟨?_, hmv, h⟩
  rw [← hmv]
  simp only [render_q, render_m, projection_setup_m, gl_setup, gl_setup_lighting,
    List.append_assoc]
  exact ⟨_, rfl, by simp [render_m_model_view]⟩

/-- C3 (witness): the unit quaternion (1/2, 1/2, 1/2, 1/2) and scale factor 3. -/
theorem quaternion_paths_agree_witness :
    Quat.dot quat_half quat_half = 1 ∧ scene_fixture.scale_factor ≠ 0 ∧
    inverse (get_inverse_model_matrix scene_fixture quat_half)
      = get_model_matrix_q scene_fixture quat_half :=
  ⟨by norm_num [Quat.dot, quat_half], by norm_num [scene_fixture, Scene.new],
    (quaternion_paths_agree libm_rat scene_fixture [] 0 20 quat_half quat_half ![1, 2, 3]
      (by norm_num [Quat.dot, quat_half]) (by norm_num [scene_fixture, Scene.new])).2.2⟩

/-- C4: for every unit quaternion q, scale factor s and direction v (homogeneous
coordinate 0), M = get_model_matrix(q) = mat4_cast(q) * scale(s) satisfies
|M v|^2 = s^2 |v|^2, the image is again a direction, and a unit vector is sent
to a vector of squared length s^2. -/
theorem quaternion_model_scales_lengths (sc : Scene K) (q : Quat K) (v : Vec3 K)
    (hq : Quat.dot q q = 1) :
    ((Matrix.mulVec (get_model_matrix_q sc q) ![v 0, v 1, v 2, 0]) 0 ^ 2 +
      (Matrix.mulVec (get_model_matrix_q sc q) ![v 0, v 1, v 2, 0]) 1 ^ 2 +
      (Matrix.mulVec (get_model_matrix_q sc q) ![v 0, v 1, v 2, 0]) 2 ^ 2
        = sc.scale_factor ^ 2 * (v 0 ^ 2 + v 1 ^ 2 + v 2 ^ 2)) ∧
    (Matrix.mulVec (get_model_matrix_q sc q) ![v 0, v 1, v 2, 0]) 3 = 0 ∧
    (v 0 ^ 2 + v 1 ^ 2 + v 2 ^ 2 = 1 →
      (Matrix.mulVec (get_model_matrix_q sc q) ![v 0, v 1, v 2, 0]) 0 ^ 2 +
      (Matrix.mulVec (get_model_matrix_q sc q) ![v 0, v 1, v 2, 0]) 1 ^ 2 +
      (Matrix.mulVec (get_model_matrix_q sc q) ![v 0, v 1, v 2, 0]) 2 ^ 2
        = sc.scale_factor ^ 2) := by
  have h : q.x * q.x + q.y * q.y + q.z * q.z + q.w * q.w = 1 := hq
  have key : (Matrix.mulVec (get_model_matrix_q sc q) ![v 0, v 1, v 2, 0]) 0 ^ 2 +
      (Matrix.mulVec (get_model_matrix_q sc q) ![v 0, v 1, v 2, 0]) 1 ^ 2 +
      (Matrix.mulVec (get_model_matrix_q sc q) ![v 0, v 1, v 2, 0]) 2 ^ 2
        = sc.scale_factor ^ 2 * (v 0 ^ 2 + v 1 ^ 2 + v 2 ^ 2) := by
    simp [get_model_matrix_q, Matrix.mulVec, Matrix.dotProduct, Matrix.mul_apply,
      Fin.sum_univ_four, mat4_cast, scale, ofColumns, Matrix.vecHead, Matrix.vecTail]
    linear_combination (sc.scale_factor ^ 2 *
      (4 * (q.y * q.y + q.z * q.z) * v 0 ^ 2 + 4 * (q.x * q.x + q.z * q.z) * v 1 ^ 2 +
       4 * (q.x * q.x + q.y * q.y) * v 2 ^ 2 - 8 * (q.x * q.y) * (v 0 * v 1) -
       8 * (q.x * q.z) * (v 0 * v 2) - 8 * (q.y * q.z) * (v 1 * v 2))) * h
  refine ⟨key, ?_, ?_⟩
  · simp [get_model_matrix_q, Matrix.mulVec, Matrix.dotProduct, Matrix.mul_apply,
      Fin.sum_univ_four, mat4_cast, scale, ofColumns, Matrix.vecHead, Matrix.vecTail]
  · intro hv
    rw [key, hv, mul_one]

/-- C4 (witness): the unit quaternion (1/2, 1/2, 1/2, 1/2), scale factor 3 and
the unit vector (1, 0, 0), whose image has squared length 9. -/
theorem quaternion_model_scales_lengths_witness :
    Quat.dot quat_half quat_half = 1 ∧
    (Matrix.mulVec (get_model_matrix_q scene_fixture quat_half) ![1, 0, 0, 0]) 0 ^ 2 +
      (Matrix.mulVec (get_model_matrix_q scene_fixture quat_half) ![1, 0, 0, 0]) 1 ^ 2 +
      (Matrix.mulVec (get_model_matrix_q scene_fixture quat_half) ![1, 0, 0, 0]) 2 ^ 2
        = scene_fixture.scale_factor ^ 2 :=
  ⟨by norm_num [Quat.dot, quat_half],
    (quaternion_model_scales_lengths scene_fixture quat_half ![1, 0, 0]
      (by norm_num [Quat.dot, quat_half])).2.2 (by norm_num)⟩

/-- C5: in write_point_cloud a pixel yields a sample exactly when its green and
blue bytes are not both 0, whatever its red and alpha bytes; the returned count
is the number of floats written and equals 4 times the number of pixels k below
width * height of the buffer with (green, blue) != (0, 0), so it is a multiple
of 4 and at most 4 * width * height; the offsets read by the loops are the
offsets of the buffer pixels, each once (any tally over them agrees). -/
theorem background_sentinel_and_count (lm : Libm K) (sc : Scene K)
    (unProject : Vec3 K → Mat4 K → Mat4 K → (Fin 4 → Int) → Vec3 K)
    (viewport : Fin 4 → Int) (rgba : Nat → UChar)
    (model_rx model_ry model_rz camera_x camera_y camera_z camera_rx camera_ry camera_rz : K)
    (width height : Nat) :
    (∀ (mv : Mat4 K) (i j : Nat) (out : PointCloud K),
      (write_pixel sc unProject viewport rgba mv height i j out).data_count =
        out.data_count +
          (if (rgba (pixel_pos height i j + 1)).val = 0 ∧
              (rgba (pixel_pos height i j + 2)).val = 0 then 0 else 4)) ∧
    (write_point_cloud lm sc unProject viewport rgba model_rx model_ry model_rz camera_x camera_y
        camera_z camera_rx camera_ry camera_rz width height).data_count =
      4 * ((Finset.range (width * height)).filter fun k =>
        ¬ ((rgba (4 * k + 1)).val = 0 ∧ (rgba (4 * k + 2)).val = 0)).card ∧
    (write_point_cloud lm sc unProject viewport rgba model_rx model_ry model_rz camera_x camera_y
        camera_z camera_rx camera_ry camera_rz width height).data.length =
      (write_point_cloud lm sc unProject viewport rgba model_rx model_ry model_rz camera_x
        camera_y camera_z camera_rx camera_ry camera_rz width height).data_count ∧
    4 ∣ (write_point_cloud lm sc unProject viewport rgba model_rx model_ry model_rz camera_x
        camera_y camera_z camera_rx camera_ry camera_rz width height).data_count ∧
    (write_point_cloud lm sc unProject viewport rgba model_rx model_ry model_rz camera_x
        camera_y camera_z camera_rx camera_ry camera_rz width height).data_count ≤
      4 * width * height ∧
    (∀ f : Nat → Nat,
      ∑ i in Finset.range height, ∑ j in Finset.range width, f (pixel_pos height i j) =
        ∑ k in Finset.range (width * height), f (4 * k)) := by
  refine ⟨?_, write_point_cloud_count .., write_point_cloud_length .., ?_, ?_,
    fun f => sum_column_major (fun k => f (4 * k)) width height⟩
  · intro mv i j out
    rw [write_pixel_eq]
    by_cases h : pixel_gb rgba (pixel_pos height i j) = 0
    · have h2 := (pixel_gb_eq_zero_iff rgba _).mp h
      simp [h, h2]
    · have h2 := mt (pixel_gb_eq_zero_iff rgba _).mpr h
      simp [h, h2]
  · rw [write_point_cloud_count]
    exact Dvd.intro _ rfl
  · rw [write_point_cloud_count, Nat.mul_assoc]
    refine Nat.mul_le_mul_left 4 ?_
    calc _ ≤ (Finset.range (width * height)).card := Finset.card_filter_le _ _
      _ = width * height := Finset.card_range _

/-- C6: for every pixel that is not background, with green byte g and blue byte
b, the z component written is t * (far_plane - real_near_plane) +
real_near_plane with t = (g * 255 + b) / 65536, whatever glm::unProject returns:
for the loop body; for the third float of every block of four of the output of
write_point_cloud; and for the whole output, which is, in loop order over every
i below height and j below width, nothing for a background pixel and otherwise
four floats whose third is that depth and whose fourth is red / 256. -/
theorem depth_decode (lm : Libm K) (sc : Scene K)
    (unProject : Vec3 K → Mat4 K → Mat4 K → (Fin 4 → Int) → Vec3 K)
    (viewport : Fin 4 → Int) (rgba : Nat → UChar)
    (model_rx model_ry model_rz camera_x camera_y camera_z camera_rx camera_ry camera_rz : K)
    (width height : Nat) :
    (∀ (mv : Mat4 K) (i j : Nat) (out : PointCloud K),
      ¬ ((rgba (pixel_pos height i j + 1)).val = 0 ∧
          (rgba (pixel_pos height i j + 2)).val = 0) →
      ∃ x y r, write_pixel sc unProject viewport rgba mv height i j out =
        { data := out.data ++ [x, y,
            (((rgba (pixel_pos height i j + 1)).val : K) * 255 +
                ((rgba (pixel_pos height i j + 2)).val : K)) / 65536 *
              (sc.far_plane - sc.real_near_plane) + sc.real_near_plane, r]
          data_count := out.data_count + 4 }) ∧
    (∀ n : Nat,
      4 * n + 3 < (write_point_cloud lm sc unProject viewport rgba model_rx model_ry model_rz
        camera_x camera_y camera_z camera_rx camera_ry camera_rz width height).data_count →
      ∃ i j, i < height ∧ j < width ∧
        ¬ ((rgba (pixel_pos height i j + 1)).val = 0 ∧
            (rgba (pixel_pos height i j + 2)).val = 0) ∧
        (write_point_cloud lm sc unProject viewport rgba model_rx model_ry model_rz
          camera_x camera_y camera_z camera_rx camera_ry camera_rz width height).data[4 * n + 2]? =
          some ((((rgba (pixel_pos height i j + 1)).val : K) * 255 +
                ((rgba (pixel_pos height i j + 2)).val : K)) / 65536 *
              (sc.far_plane - sc.real_near_plane) + sc.real_near_plane)) ∧
    (∃ x y : Nat → Nat → K,
      (write_point_cloud lm sc unProject viewport rgba model_rx model_ry model_rz
        camera_x camera_y camera_z camera_rx camera_ry camera_rz width height).data =
      (List.range height).flatMap fun i =>
        (List.range width).flatMap fun j =>
          if (rgba (pixel_pos height i j + 1)).val = 0 ∧
              (rgba (pixel_pos height i j + 2)).val = 0 then []
          else [x i j, y i j,
            (((rgba (pixel_pos height i j + 1)).val : K) * 255 +
                ((rgba (pixel_pos height i j + 2)).val : K)) / 65536 *
              (sc.far_plane - sc.real_near_plane) + sc.real_near_plane,
            ((rgba (pixel_pos height i j)).val : K) / 256]) := by
  have hcast : ∀ pos : Nat, ((pixel_gb rgba pos : Int) : K) =
      ((rgba (pos + 1)).val : K) * 255 + ((rgba (pos + 2)).val : K) := by
    intro pos
    simp [pixel_gb]
  refine ⟨?_, ?_, ?_⟩
  · intro mv i j out hne
    have h := mt (pixel_gb_eq_zero_iff rgba (pixel_pos height i j)).mp hne
    rw [write_pixel_eq, pixel_sample_of_ne_zero _ _ _ _ _ _ _ _ h, if_neg h, hcast]
    exact ⟨_, _, _, rfl⟩
  · intro n hn
    obtain ⟨i, j, hi, hj, h, hblock⟩ := write_point_cloud_block lm sc unProject viewport rgba
      model_rx model_ry model_rz camera_x camera_y camera_z camera_rx camera_ry camera_rz
      width height n hn
    refine ⟨i, j, hi, hj, mt (pixel_gb_eq_zero_iff rgba _).mpr h, ?_⟩
    have h2 := congrArg (fun l : List K => l[2]?) hblock
    simp only [List.getElem?_take, List.getElem?_drop] at h2
    rw [pixel_sample_of_ne_zero _ _ _ _ _ _ _ _ h, hcast] at h2
    simpa using h2
  · refine ⟨fun i j => (pixel_sample sc unProject viewport rgba
          (get_model_view_matrix lm sc model_rx model_ry model_rz camera_x camera_y camera_z
            camera_rx camera_ry camera_rz) height i j).getD 0 0,
        fun i j => (pixel_sample sc unProject viewport rgba
          (get_model_view_matrix lm sc model_rx model_ry model_rz camera_x camera_y camera_z
            camera_rx camera_ry camera_rz) height i j).getD 1 0, ?_⟩
    rw [write_point_cloud_eq]
    simp only
    congr 1
    funext i
    congr 1
    funext j
    by_cases h : pixel_gb rgba (pixel_pos height i j) = 0
    · have hlen := pixel_sample_length sc unProject viewport rgba
        (get_model_view_matrix lm sc model_rx model_ry model_rz camera_x camera_y camera_z
          camera_rx camera_ry camera_rz) height i j
      rw [if_pos h] at hlen
      rw [if_pos ((pixel_gb_eq_zero_iff rgba _).mp h)]
      exact List.length_eq_zero.mp hlen
    · rw [if_neg (mt (pixel_gb_eq_zero_iff rgba _).mpr h),
        pixel_sample_of_ne_zero _ _ _ _ _ _ _ _ h, hcast]
      simp

/-- C6 (witness): real_near_plane = 1, far_plane = 101 and a 2 x 2 buffer whose
pixels 0, 2 and 3 have g = b = 128, 64 and 192 and whose pixel 1 is background.
The loops visit the pixels 0, 2, 1, 3, and the twelve floats written carry the
depths 51, 26 and 76 in that order. -/
theorem depth_decode_witness :
    4 * 0 + 3 < (write_point_cloud libm_rat scene_1_101 (fun _ _ _ _ => ![0, 0, 0])
        ![0, 0, 2, 2] rgba_depths 0 0 0 0 0 200 0 0 0 2 2).data_count ∧
    (∃ i j, i < 2 ∧ j < 2 ∧
        ¬ ((rgba_depths (pixel_pos 2 i j + 1)).val = 0 ∧
            (rgba_depths (pixel_pos 2 i j + 2)).val = 0) ∧
        (write_point_cloud libm_rat scene_1_101 (fun _ _ _ _ => ![0, 0, 0])
          ![0, 0, 2, 2] rgba_depths 0 0 0 0 0 200 0 0 0 2 2).data[4 * 0 + 2]? =
          some ((((rgba_depths (pixel_pos 2 i j + 1)).val : ℚ) * 255 +
                ((rgba_depths (pixel_pos 2 i j + 2)).val : ℚ)) / 65536 *
              (scene_1_101.far_plane - scene_1_101.real_near_plane) +
                scene_1_101.real_near_plane)) ∧
    (write_point_cloud libm_rat scene_1_101 (fun _ _ _ _ => ![0, 0, 0])
        ![0, 0, 2, 2] rgba_depths 0 0 0 0 0 200 0 0 0 2 2).data.length = 12 ∧
    (write_point_cloud libm_rat scene_1_101 (fun _ _ _ _ => ![0, 0, 0])
        ![0, 0, 2, 2] rgba_depths 0 0 0 0 0 200 0 0 0 2 2).data[2]? = some 51 ∧
    (write_point_cloud libm_rat scene_1_101 (fun _ _ _ _ => ![0, 0, 0])
        ![0, 0, 2, 2] rgba_depths 0 0 0 0 0 200 0 0 0 2 2).data[6]? = some 26 ∧
    (write_point_cloud libm_rat scene_1_101 (fun _ _ _ _ => ![0, 0, 0])
        ![0, 0, 2, 2] rgba_depths 0 0 0 0 0 200 0 0 0 2 2).data[10]? = some 76 := by
  have hn : 4 * 0 + 3 < (write_point_cloud libm_rat scene_1_101 (fun _ _ _ _ => ![0, 0, 0])
        ![0, 0, 2, 2] rgba_depths 0 0 0 0 0 200 0 0 0 2 2).data_count := by
    rw [write_point_cloud_count]
    decide
  refine ⟨hn, (depth_decode libm_rat scene_1_101 (fun _ _ _ _ => ![0, 0, 0])
        ![0, 0, 2, 2] rgba_depths 0 0 0 0 0 200 0 0 0 2 2).2.1 0 hn, ?_⟩
  obtain ⟨x, y, hdata⟩ := (depth_decode libm_rat scene_1_101 (fun _ _ _ _ => ![0, 0, 0])
        ![0, 0, 2, 2] rgba_depths 0 0 0 0 0 200 0 0 0 2 2).2.2
  have h128 : ((128 : UChar) : Nat) = 128 := rfl
  have h64 : ((64 : UChar) : Nat) = 64 := rfl
  have h192 : ((192 : UChar) : Nat) = 192 := rfl
  have hnear : scene_1_101.real_near_plane = 1 := by
    norm_num [scene_1_101, projection_setup, Scene.new, mesh_const, NEAR_PLANE_FACTOR]
  have hfar : scene_1_101.far_plane = 101 := by
    norm_num [scene_1_101, projection_setup, Scene.new, mesh_const, FAR_PLANE_FACTOR]
  rw [hdata, hnear, hfar]
  simp [List.range_succ, pixel_pos, rgba_depths, h128, h64, h192]
  norm_num

/-- C7: immediately after construction, for every camera_d and scale_factor,
near_plane_bound = camera_d - 174, get_near_plane() = max(MIN_NEAR_PLANE,
camera_d - 174) and get_far_plane() = camera_d + 174; with scale_factor = 1 and
camera_d = 200 the near plane bound is 26. -/
theorem initial_clip_planes (mesh : Mesh K) (scale_factor_ camera_d_ : K) :
    (Scene.new mesh scale_factor_ camera_d_).near_plane_bound = camera_d_ - 174 ∧
    (Scene.new mesh scale_factor_ camera_d_).get_near_plane
      = max MIN_NEAR_PLANE (camera_d_ - 174) ∧
    (Scene.new mesh scale_factor_ camera_d_).get_far_plane = camera_d_ + 174 ∧
    (Scene.new mesh 1 200).near_plane_bound = 26 := by
  refine ⟨?_, ?_, ?_, ?_⟩
  · simp [Scene.new, BOX_HALF_DIAGONAL]
  · simp [Scene.new, Scene.get_near_plane, BOX_HALF_DIAGONAL]
  · simp [Scene.new, Scene.get_far_plane, BOX_HALF_DIAGONAL]
  · simp only [Scene.new, BOX_HALF_DIAGONAL]
    norm_num

/-- C8 (failing input): zero angles, scale factor 1, the camera at (1, 2, 0) and a
one-pixel buffer with g = b = 128.  For every un-projected point p the code
emits x = -p.x and y = p.y, the flipped image of the direction (p, 0), whereas
the camera-space position of p gives -(model_view * (p, 1)).x = -p.x + 1 and
(model_view * (p, 1)).y = p.y - 2: the translation is dropped. -/
theorem xy_drop_translation
    (unProject : Vec3 ℚ → Mat4 ℚ → Mat4 ℚ → (Fin 4 → Int) → Vec3 ℚ)
    (viewport : Fin 4 → Int) :
    let mv := get_model_view_matrix libm_rat scene_1_101 0 0 0 1 2 0 0 0 0
    let p := unProject ![0, 0, 1 / 2] mv scene_1_101.projection viewport
    let out := write_point_cloud libm_rat scene_1_101 unProject viewport rgba_gray
      0 0 0 1 2 0 0 0 0 1 1
    (out.data[0]? = some (-(p 0)) ∧ out.data[1]? = some (p 1)) ∧
    (-(Matrix.mulVec mv ![p 0, p 1, p 2, 1]) 0 = -(p 0) + 1 ∧
      (Matrix.mulVec mv ![p 0, p 1, p 2, 1]) 1 = p 1 - 2) := by
  intro mv p out
  have hgb : pixel_gb rgba_gray (pixel_pos 1 0 0) = 32768 := by decide
  have hdata : out.data = pixel_sample scene_1_101 unProject viewport rgba_gray mv 1 0 0 := by
    simp only [out, write_point_cloud_eq]
    simp [mv, List.range_succ]
  have hne : pixel_gb rgba_gray (pixel_pos 1 0 0) ≠ 0 := by rw [hgb]; decide
  rw [hdata, pixel_sample_of_ne_zero _ _ _ _ _ _ _ _ hne, hgb]
  have ht : ((32768 : Int) : ℚ) / 65536 = 1 / 2 := by norm_num
  simp only [ht]
  have hmv : mv = ofColumns ![1, 0, 0, 0] ![0, 1, 0, 0] ![0, 0, 1, 0] ![-1, -2, 0, 1] :=
    model_view_fixture
  refine ⟨⟨?_, ?_⟩, ?_, ?_⟩
  · simp [p, hmv, Matrix.mulVec, Matrix.dotProduct, Fin.sum_univ_four, ofColumns,
      Matrix.vecHead, Matrix.vecTail]
  · simp [p, hmv, Matrix.mulVec, Matrix.dotProduct, Fin.sum_univ_four, ofColumns,
      Matrix.vecHead, Matrix.vecTail]
  · rw [hmv]
    simp [Matrix.mulVec, Matrix.dotProduct, Fin.sum_univ_four, ofColumns,
      Matrix.vecHead, Matrix.vecTail]
    ring
  · rw [hmv]
    simp [Matrix.mulVec, Matrix.dotProduct, Fin.sum_univ_four, ofColumns,
      Matrix.vecHead, Matrix.vecTail]
    ring

/-- C9 (failing input): width = 3 and height = 2.  The loop indices i = 0, j = 1
read byte offset 8, not the row-major offset 4 * (0 * 3 + 1) = 4, and with a
buffer whose pixel k has red byte k the six intensities come out in the pixel
order 0, 2, 4, 1, 3, 5, which is not increasing buffer order. -/
theorem column_major_addressing (lm : Libm K) (sc : Scene K)
    (unProject : Vec3 K → Mat4 K → Mat4 K → (Fin 4 → Int) → Vec3 K)
    (viewport : Fin 4 → Int)
    (model_rx model_ry model_rz camera_x camera_y camera_z camera_rx camera_ry camera_rz : K) :
    (pixel_pos 2 0 1 = 8 ∧ pixel_pos 2 0 1 ≠ 4 * (0 * 3 + 1)) ∧
    (write_point_cloud lm sc unProject viewport rgba_index model_rx model_ry model_rz camera_x
      camera_y camera_z camera_rx camera_ry camera_rz 3 2).data_count = 24 ∧
    (write_point_cloud lm sc unProject viewport rgba_index model_rx model_ry model_rz camera_x
      camera_y camera_z camera_rx camera_ry camera_rz 3 2).data[3]? = some (0 / 256) ∧
    (write_point_cloud lm sc unProject viewport rgba_index model_rx model_ry model_rz camera_x
      camera_y camera_z camera_rx camera_ry camera_rz 3 2).data[7]? = some (2 / 256) ∧
    (write_point_cloud lm sc unProject viewport rgba_index model_rx model_ry model_rz camera_x
      camera_y camera_z camera_rx camera_ry camera_rz 3 2).data[11]? = some (4 / 256) ∧
    (write_point_cloud lm sc unProject viewport rgba_index model_rx model_ry model_rz camera_x
      camera_y camera_z camera_rx camera_ry camera_rz 3 2).data[15]? = some (1 / 256) ∧
    (write_point_cloud lm sc unProject viewport rgba_index model_rx model_ry model_rz camera_x
      camera_y camera_z camera_rx camera_ry camera_rz 3 2).data[19]? = some (3 / 256) ∧
    (write_point_cloud lm sc unProject viewport rgba_index model_rx model_ry model_rz camera_x
      camera_y camera_z camera_rx camera_ry camera_rz 3 2).data[23]? = some (5 / 256) := by
  have hs : ∀ i j : Nat, ∃ x y z : K,
      pixel_sample sc unProject viewport rgba_index
        (get_model_view_matrix lm sc model_rx model_ry model_rz camera_x camera_y camera_z
          camera_rx camera_ry camera_rz) 2 i j =
        [x, y, z, ((rgba_index (pixel_pos 2 i j)).val : K) / 256] := by
    intro i j
    have hne : pixel_gb rgba_index (pixel_pos 2 i j) ≠ 0 := by
      rw [pixel_gb_rgba_index _ (by unfold pixel_pos; omega)]
      decide
    rw [pixel_sample_of_ne_zero _ _ _ _ _ _ _ _ hne]
    exact ⟨_, _, _, rfl⟩
  obtain ⟨x00, y00, z00, h00⟩ := hs 0 0
  obtain ⟨x01, y01, z01, h01⟩ := hs 0 1
  obtain ⟨x02, y02, z02, h02⟩ := hs 0 2
  obtain ⟨x10, y10, z10, h10⟩ := hs 1 0
  obtain ⟨x11, y11, z11, h11⟩ := hs 1 1
  obtain ⟨x12, y12, z12, h12⟩ := hs 1 2
  have hdata : (write_point_cloud lm sc unProject viewport rgba_index model_rx model_ry model_rz
      camera_x camera_y camera_z camera_rx camera_ry camera_rz 3 2).data =
      [x00, y00, z00, 0 / 256, x01, y01, z01, 2 / 256, x02, y02, z02, 4 / 256,
       x10, y10, z10, 1 / 256, x11, y11, z11, 3 / 256, x12, y12, z12, 5 / 256] := by
    rw [write_point_cloud_eq]
    simp only [List.range_succ, List.range_zero, List.nil_append, List.flatMap_append,
      List.flatMap_singleton, List.flatMap_nil, List.append_nil, h00, h01, h02, h10, h11, h12]
    have e3 : ((3 : Fin 256) : Nat) = 3 := rfl
    have e4 : ((4 : Fin 256) : Nat) = 4 := rfl
    have e5 : ((5 : Fin 256) : Nat) = 5 := rfl
    simp [pixel_pos, rgba_index, Fin.ofNat, e3, e4, e5]
  refine ⟨⟨by decide, by decide⟩, ?_, ?_⟩
  · rw [← write_point_cloud_length, hdata]
    rfl
  · rw [hdata]
    simp

/-- C10: the point handed to the mesh bound oracle is the camera position in
model coordinates, in both calling conventions.  Euler form: projection_setup
stores the oracle's near bound, and the far bound times FAR_PLANE_FACTOR, taken
at the model matrix and the point inverse(model) * (c, 1), and for scale factor
s != 0 and model angles whose libm cosine and sine lie on the unit circle the
model-view matrix maps that point to (0, 0, 0, 1), for any camera angles.
Matrix form: projection_setup stores the oracle's bounds taken at
inverse(inverse_model) and the point inverse_model * inverse(view_physics) *
(0, 0, 0, 1), and for inverse_model and view_physics of nonzero determinant
view_physics * inverse(inverse_model) maps that point to (0, 0, 0, 1). -/
theorem camera_point_maps_to_origin (lm : Libm K) (sc : Scene K) (gl : List (GLCall K))
    (fov model_rx model_ry model_rz cam_x cam_y cam_z cam_rx cam_ry cam_rz : K)
    (inverse_model view_physics : Mat4 K)
    (hs : sc.scale_factor ≠ 0)
    (hx : lm.cos model_rx ^ 2 + lm.sin model_rx ^ 2 = 1)
    (hy : lm.cos model_ry ^ 2 + lm.sin model_ry ^ 2 = 1)
    (hz : lm.cos model_rz ^ 2 + lm.sin model_rz ^ 2 = 1)
    (hm : Matrix.det inverse_model ≠ 0) (hv : Matrix.det view_physics ≠ 0) :
    ((projection_setup lm sc gl fov model_rx model_ry model_rz cam_x cam_y cam_z
          cam_rx cam_ry cam_rz).1.near_plane_bound =
        sc.mesh.near_plane_bound (get_model_matrix lm sc model_rx model_ry model_rz)
          (camera_pos_mc_euler lm sc model_rx model_ry model_rz cam_x cam_y cam_z) ∧
      (projection_setup lm sc gl fov model_rx model_ry model_rz cam_x cam_y cam_z
          cam_rx cam_ry cam_rz).1.far_plane =
        sc.mesh.far_plane_bound (get_model_matrix lm sc model_rx model_ry model_rz)
          (camera_pos_mc_euler lm sc model_rx model_ry model_rz cam_x cam_y cam_z) *
            FAR_PLANE_FACTOR ∧
      Matrix.mulVec
          (get_model_view_matrix lm sc model_rx model_ry model_rz cam_x cam_y cam_z
            cam_rx cam_ry cam_rz)
          (camera_pos_mc_euler lm sc model_rx model_ry model_rz cam_x cam_y cam_z)
        = ![0, 0, 0, 1]) ∧
    ((projection_setup_m lm sc gl fov inverse_model view_physics).1.near_plane_bound =
        sc.mesh.near_plane_bound (inverse inverse_model)
          (camera_pos_mc_matrix inverse_model view_physics) ∧
      (projection_setup_m lm sc gl fov inverse_model view_physics).1.far_plane =
        sc.mesh.far_plane_bound (inverse inverse_model)
          (camera_pos_mc_matrix inverse_model view_physics) * FAR_PLANE_FACTOR ∧
      Matrix.mulVec (view_physics * inverse inverse_model)
          (camera_pos_mc_matrix inverse_model view_physics)
        = ![0, 0, 0, 1]) := by
  refine ⟨⟨rfl, rfl, ?_⟩, ⟨rfl, rfl, ?_⟩⟩
  · have hB := model_matrix_right_inverse lm sc model_rx model_ry model_rz hs hx hy hz
    unfold get_model_view_matrix camera_pos_mc_euler
    simp only [inverse_eq_of_mul_eq_one hB, Matrix.mulVec_mulVec]
    rw [Matrix.mul_assoc, hB, Matrix.mul_one]
    exact view_mulVec_camera lm cam_x cam_y cam_z cam_rx cam_ry cam_rz
  · unfold camera_pos_mc_matrix
    simp only [inverse_matrix_eq_inv, Matrix.mulVec_mulVec]
    have hm1 : IsUnit (Matrix.det inverse_model) := isUnit_iff_ne_zero.mpr hm
    have hv1 : IsUnit (Matrix.det view_physics) := isUnit_iff_ne_zero.mpr hv
    have : view_physics * inverse_model⁻¹ * (inverse_model * view_physics⁻¹) = 1 := by
      calc view_physics * inverse_model⁻¹ * (inverse_model * view_physics⁻¹)
          = view_physics * (inverse_model⁻¹ * inverse_model) * view_physics⁻¹ := by
            simp only [Matrix.mul_assoc]
        _ = 1 := by
            rw [Matrix.nonsing_inv_mul _ hm1, Matrix.mul_one, Matrix.mul_nonsing_inv _ hv1]
    rw [this, Matrix.one_mulVec]

/-- C10 (witness): the probing mesh reports the point it is handed (near bound
x + 10 y, far bound z + 10 w), with scale factor 3.  Euler form: a quarter turn
of the model about Z and the camera at (-6, 3, 9) hand the oracle the point
(1, 2, 3, 1), so the stored near bound is 21 and the far plane 13 * 1.01.
Matrix form: the matrices the quaternion render builds from the unit
quaternion (1/2, 1/2, 1/2, 1/2) and the translation (-9, -3, -6) hand the
oracle the same point. -/
theorem camera_point_maps_to_origin_witness :
    (scene_probe.scale_factor ≠ 0 ∧
      libm_rat.cos 0 ^ 2 + libm_rat.sin 0 ^ 2 = 1 ∧
      libm_rat.cos 1 ^ 2 + libm_rat.sin 1 ^ 2 = 1 ∧
      Matrix.det (get_inverse_model_matrix scene_probe quat_half) ≠ 0 ∧
      Matrix.det (get_view_matrix_q ![-9, -3, -6] quat_half) ≠ 0) ∧
    ((projection_setup libm_rat scene_probe [] 20 0 0 1 (-6) 3 9 0 (1 / 2) 1).1.near_plane_bound
        = 21 ∧
      (projection_setup libm_rat scene_probe [] 20 0 0 1 (-6) 3 9 0 (1 / 2) 1).1.far_plane
        = 1313 / 100 ∧
      camera_pos_mc_euler libm_rat scene_probe 0 0 1 (-6) 3 9 = ![1, 2, 3, 1] ∧
      Matrix.mulVec (get_model_view_matrix libm_rat scene_probe 0 0 1 (-6) 3 9 0 (1 / 2) 1)
          (camera_pos_mc_euler libm_rat scene_probe 0 0 1 (-6) 3 9)
        = ![0, 0, 0, 1]) ∧
    ((projection_setup_m libm_rat scene_probe [] 20
          (get_inverse_model_matrix scene_probe quat_half)
          (get_view_matrix_q ![-9, -3, -6] quat_half)).1.near_plane_bound = 21 ∧
      (projection_setup_m libm_rat scene_probe [] 20
          (get_inverse_model_matrix scene_probe quat_half)
          (get_view_matrix_q ![-9, -3, -6] quat_half)).1.far_plane = 1313 / 100 ∧
      camera_pos_mc_matrix (get_inverse_model_matrix scene_probe quat_half)
          (get_view_matrix_q ![-9, -3, -6] quat_half) = ![1, 2, 3, 1] ∧
      Matrix.mulVec
          (get_view_matrix_q ![-9, -3, -6] quat_half *
            inverse (get_inverse_model_matrix scene_probe quat_half))
          (camera_pos_mc_matrix (get_inverse_model_matrix scene_probe quat_half)
            (get_view_matrix_q ![-9, -3, -6] quat_half))
        = ![0, 0, 0, 1]) := by
  have hs : scene_probe.scale_factor ≠ 0 := by norm_num [scene_probe, Scene.new]
  have h0 : libm_rat.cos 0 ^ 2 + libm_rat.sin 0 ^ 2 = 1 := by norm_num [libm_rat]
  have h1 : libm_rat.cos 1 ^ 2 + libm_rat.sin 1 ^ 2 = 1 := by norm_num [libm_rat]
  have hq : Quat.dot quat_half quat_half = 1 := by norm_num [Quat.dot, quat_half]
  have hm : Matrix.det (get_inverse_model_matrix scene_probe quat_half) ≠ 0 :=
    Matrix.det_ne_zero_of_right_inverse (inverse_model_mul_model scene_probe quat_half hq hs)
  have hv : Matrix.det (get_view_matrix_q ![-9, -3, -6] quat_half) ≠ 0 :=
    Matrix.det_ne_zero_of_right_inverse (view_matrix_q_right_inverse _ quat_half hq)
  have hpe : camera_pos_mc_euler libm_rat scene_probe 0 0 1 (-6) 3 9 = ![1, 2, 3, 1] := by
    unfold camera_pos_mc_euler
    simp only
    rw [← model_matrix_probe]
    exact inverse_mulVec_mulVec (model_matrix_right_inverse libm_rat scene_probe 0 0 1 hs h0 h0 h1)
      _
  have hpm : camera_pos_mc_matrix (get_inverse_model_matrix scene_probe quat_half)
      (get_view_matrix_q ![-9, -3, -6] quat_half) = ![1, 2, 3, 1] := by
    unfold camera_pos_mc_matrix
    simp only
    rw [← Matrix.mulVec_mulVec, ← view_matrix_probe,
      inverse_mulVec_mulVec (view_matrix_q_right_inverse _ quat_half hq), inverse_model_probe]
  obtain ⟨⟨e1, e2, e3⟩, ⟨m1, m2, m3⟩⟩ :=
    camera_point_maps_to_origin libm_rat scene_probe [] 20 0 0 1 (-6) 3 9 0 (1 / 2) 1
      (get_inverse_model_matrix scene_probe quat_half)
      (get_view_matrix_q ![-9, -3, -6] quat_half) hs h0 h0 h1 hm hv
  refine ⟨⟨hs, h0, h1, hm, hv⟩, ⟨?_, ?_, hpe, e3⟩, ⟨?_, ?_, hpm, m3⟩⟩
  · rw [e1, hpe]
    norm_num [scene_probe, Scene.new, mesh_probe]
  · rw [e2, hpe]
    norm_num [scene_probe, Scene.new, mesh_probe, FAR_PLANE_FACTOR]
  · rw [m1, hpm]
    norm_num [scene_probe, Scene.new, mesh_probe]
  · rw [m2, hpm]
    norm_num [scene_probe, Scene.new, mesh_probe, FAR_PLANE_FACTOR]

/-- C11: the decoded value gb = g * 255 + b lies in 0..65280 for all bytes g and
b; whenever real_near_plane < far_plane, the z of every sample written by
write_point_cloud comes from a pixel with gb != 0 and lies strictly between
real_near_plane and far_plane; and the z emitted by the loop body is strictly
increasing in gb. -/
theorem depth_strictly_inside_clip_range (lm : Libm K) (sc : Scene K)
    (unProject : Vec3 K → Mat4 K → Mat4 K → (Fin 4 → Int) → Vec3 K)
    (viewport : Fin 4 → Int) (rgba : Nat → UChar)
    (model_rx model_ry model_rz camera_x camera_y camera_z camera_rx camera_ry camera_rz : K)
    (width height : Nat) (hlt : sc.real_near_plane < sc.far_plane) :
    (∀ pos : Nat, 0 ≤ pixel_gb rgba pos ∧ pixel_gb rgba pos ≤ 65280) ∧
    (∀ n : Nat,
      4 * n + 3 < (write_point_cloud lm sc unProject viewport rgba model_rx model_ry model_rz
        camera_x camera_y camera_z camera_rx camera_ry camera_rz width height).data_count →
      ∃ i j z, i < height ∧ j < width ∧ pixel_gb rgba (pixel_pos height i j) ≠ 0 ∧
        (0 < (pixel_gb rgba (pixel_pos height i j) : K) / 65536 ∧
          (pixel_gb rgba (pixel_pos height i j) : K) / 65536 < 1) ∧
        (write_point_cloud lm sc unProject viewport rgba model_rx model_ry model_rz
          camera_x camera_y camera_z camera_rx camera_ry camera_rz width height).data[4 * n + 2]? =
          some z ∧
        sc.real_near_plane < z ∧ z < sc.far_plane) ∧
    (∀ (rgba1 rgba2 : Nat → UChar) (mv1 mv2 : Mat4 K) (h1 i1 j1 h2 i2 j2 : Nat),
      pixel_gb rgba1 (pixel_pos h1 i1 j1) ≠ 0 →
      pixel_gb rgba1 (pixel_pos h1 i1 j1) < pixel_gb rgba2 (pixel_pos h2 i2 j2) →
      ∃ z1 z2,
        (pixel_sample sc unProject viewport rgba1 mv1 h1 i1 j1)[2]? = some z1 ∧
        (pixel_sample sc unProject viewport rgba2 mv2 h2 i2 j2)[2]? = some z2 ∧
        z1 < z2) := by
  have hrange : ∀ (r : Nat → UChar) (pos : Nat),
      0 ≤ pixel_gb r pos ∧ pixel_gb r pos ≤ 65280 := by
    intro r pos
    have hg := (r (pos + 1)).isLt
    have hb := (r (pos + 2)).isLt
    unfold pixel_gb
    omega
  have hd : 0 < sc.far_plane - sc.real_near_plane := sub_pos.mpr hlt
  refine ⟨hrange rgba, ?_, ?_⟩
  · intro n hn
    obtain ⟨i, j, hi, hj, h, hblock⟩ := write_point_cloud_block lm sc unProject viewport rgba
      model_rx model_ry model_rz camera_x camera_y camera_z camera_rx camera_ry camera_rz
      width height n hn
    have h2 := congrArg (fun l : List K => l[2]?) hblock
    simp only [List.getElem?_take, List.getElem?_drop] at h2
    rw [pixel_sample_of_ne_zero _ _ _ _ _ _ _ _ h] at h2
    have hpos : (0 : K) < (pixel_gb rgba (pixel_pos height i j) : K) := by
      have := (hrange rgba (pixel_pos height i j)).1
      exact_mod_cast lt_of_le_of_ne this (Ne.symm h)
    have hle : (pixel_gb rgba (pixel_pos height i j) : K) ≤ 65280 := by
      exact_mod_cast (hrange rgba (pixel_pos height i j)).2
    have ht0 : (0 : K) < (pixel_gb rgba (pixel_pos height i j) : K) / 65536 := by positivity
    have ht1 : (pixel_gb rgba (pixel_pos height i j) : K) / 65536 < 1 := by
      rw [div_lt_one (by norm_num)]
      linarith
    refine ⟨i, j, _, hi, hj, h, ⟨ht0, ht1⟩, by simpa using h2, ?_, ?_⟩
    · nlinarith
    · nlinarith
  · intro rgba1 rgba2 mv1 mv2 h1 i1 j1 h2 i2 j2 hne hlt12
    have hne2 : pixel_gb rgba2 (pixel_pos h2 i2 j2) ≠ 0 := by
      have := (hrange rgba1 (pixel_pos h1 i1 j1)).1
      omega
    rw [pixel_sample_of_ne_zero _ _ _ _ _ _ _ _ hne, pixel_sample_of_ne_zero _ _ _ _ _ _ _ _ hne2]
    refine ⟨(pixel_gb rgba1 (pixel_pos h1 i1 j1) : K) / 65536 *
        (sc.far_plane - sc.real_near_plane) + sc.real_near_plane,
      (pixel_gb rgba2 (pixel_pos h2 i2 j2) : K) / 65536 *
        (sc.far_plane - sc.real_near_plane) + sc.real_near_plane, rfl, rfl, ?_⟩
    have hc : (pixel_gb rgba1 (pixel_pos h1 i1 j1) : K) <
        (pixel_gb rgba2 (pixel_pos h2 i2 j2) : K) := by
      exact_mod_cast hlt12
    have hq : (pixel_gb rgba1 (pixel_pos h1 i1 j1) : K) / 65536 <
        (pixel_gb rgba2 (pixel_pos h2 i2 j2) : K) / 65536 :=
      div_lt_div_of_pos_right hc (by norm_num)
    have hm := mul_lt_mul_of_pos_right hq hd
    linarith

/-- C11 (witness): real_near_plane = 1 < far_plane = 101 and a one-pixel buffer
with g = b = 128: the depth written, 51, lies strictly between 1 and 101. -/
theorem depth_strictly_inside_clip_range_witness :
    scene_1_101.real_near_plane < scene_1_101.far_plane ∧
    4 * 0 + 3 < (write_point_cloud libm_rat scene_1_101 (fun _ _ _ _ => ![0, 0, 0])
        ![0, 0, 1, 1] rgba_gray 0 0 0 0 0 200 0 0 0 1 1).data_count ∧
    ∃ z, (write_point_cloud libm_rat scene_1_101 (fun _ _ _ _ => ![0, 0, 0])
        ![0, 0, 1, 1] rgba_gray 0 0 0 0 0 200 0 0 0 1 1).data[4 * 0 + 2]? = some z ∧
      scene_1_101.real_near_plane < z ∧ z < scene_1_101.far_plane := by
  have hlt : scene_1_101.real_near_plane < scene_1_101.far_plane := by
    norm_num [scene_1_101, projection_setup, Scene.new, mesh_const, NEAR_PLANE_FACTOR,
      FAR_PLANE_FACTOR]
  have hn : 4 * 0 + 3 < (write_point_cloud libm_rat scene_1_101 (fun _ _ _ _ => ![0, 0, 0])
        ![0, 0, 1, 1] rgba_gray 0 0 0 0 0 200 0 0 0 1 1).data_count := by
    rw [write_point_cloud_count]
    decide
  obtain ⟨_, _, z, _, _, _, _, hz, hz1, hz2⟩ :=
    (depth_strictly_inside_clip_range libm_rat scene_1_101 (fun _ _ _ _ => ![0, 0, 0])
      ![0, 0, 1, 1] rgba_gray 0 0 0 0 0 200 0 0 0 1 1 hlt).2.1 0 hn
  exact ⟨hlt, hn, z, hz, hz1, hz2⟩

end theorems

end Glidar
